import Mathlib

/-!
# Verification of the DPP entity-materialization and cache layer

Shallow embedding of the guild-create snapshot handler
(`src/dpp/events/guild_create.cpp`) and of the message/component entity model
(`include/dpp/message.h`), together with proofs of the specified properties.

The repository ships the handler's control flow and the entity-model header;
the bodies of `fill_from_json`, `build_json`, the component/message mutators
and the caches live outside the provided sources, so those operations are
modelled from the specification (each such definition is marked
`Modelled from the spec:` in its doc comment). Enumerations, bit values and
the handler's control flow are taken directly from the sources.
-/

/-- Snowflake: 64-bit unsigned numeric identifier (spec glossary). IDs are
only compared and stored, never subjected to overflowing arithmetic, so they
are modelled as `Nat`. -/
abbrev snowflake := Nat

/-- Minimal model of a parsed JSON document, as produced by the transport
layer and consumed by this layer (`nlohmann::json` values). -/
inductive Json where
  | null
  | str (s : String)
  | num (n : Nat)
  | bool (b : Bool)
  | arr (elems : List Json)
  | obj (fields : List (String × Json))

/-- Key lookup in an object's field list (first match). -/
def Json.findField : List (String × Json) → String → Json
  | [], _ => Json.null
  | (k, v) :: rest, key => if k = key then v else Json.findField rest key

/-- Models the read access `j["key"]`: an absent key reads as null. -/
def Json.field (j : Json) (k : String) : Json :=
  match j with
  | .obj fs => Json.findField fs k
  | _ => .null

/-- Models the C++ range-for over `d["key"]`: a null (absent) field iterates
as the empty sequence. -/
def Json.arrField (j : Json) (k : String) : List Json :=
  match j.field k with
  | .arr xs => xs
  | _ => []

/-- Optional string field with the documented default `""`. -/
def Json.strField (j : Json) (k : String) : String :=
  match j.field k with
  | .str s => s
  | _ => ""

/-- Optional boolean field with the documented default `false`. -/
def Json.boolField (j : Json) (k : String) : Bool :=
  match j.field k with
  | .bool b => b
  | _ => false

/-- Optional numeric field with the documented default `0`. -/
def Json.numField (j : Json) (k : String) : Nat :=
  match j.field k with
  | .num n => n
  | _ => 0

/-- Value of a little-endian list of decimal digits. -/
def dec_value (ds : List Nat) : Nat :=
  ds.foldr (fun d acc => d + 10 * acc) 0

/-- Modelled from the spec: "numeric IDs are transmitted as strings" — the
decimal rendering of a snowflake (serialization code not under src/). -/
def snowflake_to_wire (n : Nat) : String :=
  if n = 0 then "0" else ⟨((Nat.digits 10 n).map fun d => Char.ofNat (48 + d)).reverse⟩

/-- Modelled from the spec: IDs "are transmitted as strings and parsed to
64-bit unsigned integers" — decimal parse of a wire ID string, failing on a
non-numeric or empty string (parsing code not under src/). -/
def wire_to_snowflake (s : String) : Option Nat :=
  if s.data ≠ [] ∧ ∀ c ∈ s.data, 48 ≤ c.toNat ∧ c.toNat ≤ 57 then
    some (dec_value ((s.data.map fun c => c.toNat - 48).reverse))
  else none

/-- A required snowflake field: must be present, a string, and numeric. -/
def Json.snowflake? (j : Json) (k : String) : Option Nat :=
  match j.field k with
  | .str s => wire_to_snowflake s
  | _ => none

/-- Optional snowflake field with the documented default `0`. -/
def Json.snowflakeD (j : Json) (k : String) : snowflake :=
  (j.snowflake? k).getD 0

/-- Role entity (independent, cached by ID). Only the identity carried by the
guild-create flow is modelled. -/
structure role where
  id : snowflake
deriving DecidableEq

/-- Modelled from the spec: `role::fill_from_json` parses the required "id"
scalar; a missing or malformed required field means the entity "cannot be
meaningfully constructed" (implementation not under src/). -/
def role.fill_from_json (j : Json) : Option role :=
  (j.snowflake? "id").map fun n => { id := n }

/-- Channel entity (independent, cached by ID). -/
structure channel where
  id : snowflake
deriving DecidableEq

/-- Modelled from the spec: `channel::fill_from_json` parses the required
"id" scalar (implementation not under src/). -/
def channel.fill_from_json (j : Json) : Option channel :=
  (j.snowflake? "id").map fun n => { id := n }

/-- User entity (independent, cached by ID). -/
structure user where
  id : snowflake
deriving DecidableEq

/-- Modelled from the spec: `user::fill_from_json` parses the required "id"
scalar (implementation not under src/). -/
def user.fill_from_json (j : Json) : Option user :=
  (j.snowflake? "id").map fun n => { id := n }

/-- GuildMember: associates a User with guild-specific attributes; owned
exclusively by the guild's member mapping. -/
structure guild_member where
  user_id : snowflake
  guild_id : snowflake
  nickname : String
deriving DecidableEq

/-- Guild entity: scalar fields plus ordered ID sequences for roles and
channels and a member mapping keyed by user ID (spec §3). -/
structure guild where
  id : snowflake
  unavailable : Bool
  roles : List snowflake
  channels : List snowflake
  members : List (snowflake × guild_member)
deriving DecidableEq

/-- Modelled from the spec: `guild_member::fill_from_json(json, guild, user)`
binds the given User to the given Guild; the guild-specific attributes are
optional with defaults, so construction is total (implementation not under
src/). -/
def guild_member.fill_from_json (j : Json) (g : guild) (u : user) : guild_member :=
  { user_id := u.id, guild_id := g.id, nickname := j.strField "nick" }

/-- Modelled from the spec: `guild::fill_from_json` parses the required "id"
scalar and the optional "unavailable" flag (default false); the embedded
collections start empty and are populated by the handler, not here
(implementation not under src/). -/
def guild.fill_from_json (j : Json) : Option guild :=
  (j.snowflake? "id").map fun n =>
    { id := n
      unavailable := j.boolField "unavailable"
      roles := []
      channels := []
      members := [] }

/-- `guild::is_unavailable()`, the availability test used by the handler. -/
def guild.is_unavailable (g : guild) : Bool :=
  g.unavailable

/-- Modelled from the spec (§4.1): a keyed store's insert-or-replace
(`store`, and the member-map assignment `members[id] = gm`): replace the
entry under the key if present, append otherwise. -/
def map_store {α : Type} (m : List (snowflake × α)) (k : snowflake) (v : α) :
    List (snowflake × α) :=
  match m with
  | [] => [(k, v)]
  | (a, b) :: rest => if a = k then (k, v) :: rest else (a, b) :: map_store rest k v

/-- Modelled from the spec (§4.1): `fetch(id)` returns the entity under the
ID or a not-found signal. -/
def map_fetch {α : Type} (m : List (snowflake × α)) (k : snowflake) : Option α :=
  match m with
  | [] => none
  | (a, b) :: rest => if a = k then some b else map_fetch rest k

/-- Number of entries a keyed store holds under a given key. -/
def key_count {α : Type} (m : List (snowflake × α)) (k : snowflake) : Nat :=
  (m.filter fun p => p.1 = k).length

/-- The four process-wide entity caches touched by the guild-create flow. -/
structure CacheState where
  role_cache : List (snowflake × role)
  channel_cache : List (snowflake × channel)
  user_cache : List (snowflake × user)
  guild_cache : List (snowflake × guild)
deriving DecidableEq

/-- One cache store performed by the handler. -/
inductive StoreOp where
  | sRole (r : role)
  | sChannel (c : channel)
  | sUser (u : user)
  | sGuild (g : guild)
deriving DecidableEq

/-- Effect of one store on the caches: each entity is stored in its own
cache under its own ID (spec §4.1). -/
def applyOp (st : CacheState) : StoreOp → CacheState
  | .sRole r => { st with role_cache := map_store st.role_cache r.id r }
  | .sChannel c => { st with channel_cache := map_store st.channel_cache c.id c }
  | .sUser u => { st with user_cache := map_store st.user_cache u.id u }
  | .sGuild g => { st with guild_cache := map_store st.guild_cache g.id g }

/-- Effect of a sequence of stores, in order. -/
def applyTrace (st : CacheState) (ops : List StoreOp) : CacheState :=
  ops.foldl applyOp st

/-- Parse every fragment of a list, failing if any single one fails. -/
def parse_list {α : Type} (f : Json → Option α) : List Json → Option (List α)
  | [] => some []
  | j :: rest =>
    match f j with
    | none => none
    | some a => (parse_list f rest).map fun xs => a :: xs

/-- The role loop of `guild_create::handle` (guild_create.cpp lines 20-25):
for each role fragment construct a role via `fill_from_json`, store it, and
append its ID to the guild's role sequence. A failed construction aborts the
event at that point (the failure propagates out of the loop), keeping the
stores already performed. -/
def roles_loop : List Json → guild → Bool × List StoreOp × guild
  | [], g => (true, [], g)
  | j :: rest, g =>
    match role.fill_from_json j with
    | none => (false, [], g)
    | some r =>
      let res := roles_loop rest { g with roles := g.roles ++ [r.id] }
      (res.1, .sRole r :: res.2.1, res.2.2)

/-- The channel loop of `guild_create::handle` (guild_create.cpp lines
28-33), same pattern as the role loop. -/
def channels_loop : List Json → guild → Bool × List StoreOp × guild
  | [], g => (true, [], g)
  | j :: rest, g =>
    match channel.fill_from_json j with
    | none => (false, [], g)
    | some c =>
      let res := channels_loop rest { g with channels := g.channels ++ [c.id] }
      (res.1, .sChannel c :: res.2.1, res.2.2)

/-- The member loop of `guild_create::handle` (guild_create.cpp lines
36-44): for each member fragment construct a user from the nested "user"
sub-fragment, construct a guild_member binding it to the guild, insert it
into the guild's member mapping under the user's ID, and store the user in
the user cache. -/
def members_loop : List Json → guild → Bool × List StoreOp × guild
  | [], g => (true, [], g)
  | j :: rest, g =>
    match user.fill_from_json (j.field "user") with
    | none => (false, [], g)
    | some u =>
      let gm := guild_member.fill_from_json j g u
      let res := members_loop rest { g with members := map_store g.members u.id gm }
      (res.1, .sUser u :: res.2.1, res.2.2)

/-- `guild_create::handle` (guild_create.cpp lines 14-47) as the sequence of
cache stores it performs, paired with a success flag: fill the guild from
`j["d"]`; when the guild is available run the role, channel and member loops
in that order; finally store the guild itself (unconditionally on the
success path, and directly when the guild is unavailable). A failed entity
construction aborts the event, keeping the stores already performed. -/
def guild_create_ops (j : Json) : Bool × List StoreOp :=
  let d := j.field "d"
  match guild.fill_from_json d with
  | none => (false, [])
  | some g0 =>
    if g0.is_unavailable then (true, [.sGuild g0])
    else
      match roles_loop (d.arrField "roles") g0 with
      | (false, ops1, _) => (false, ops1)
      | (true, ops1, g1) =>
        match channels_loop (d.arrField "channels") g1 with
        | (false, ops2, _) => (false, ops1 ++ ops2)
        | (true, ops2, g2) =>
          match members_loop (d.arrField "members") g2 with
          | (false, ops3, _) => (false, ops1 ++ ops2 ++ ops3)
          | (true, ops3, g3) => (true, ops1 ++ ops2 ++ ops3 ++ [.sGuild g3])

/-- `guild_create::handle` acting on the caches: the success flag and the
caches after the event. -/
def guild_create_handle (st : CacheState) (j : Json) : Bool × CacheState :=
  ((guild_create_ops j).1, applyTrace st (guild_create_ops j).2)

/-- Component type enumeration with its wire values (message.h lines 32-37). -/
inductive component_type where
  | cot_action_row
  | cot_button
deriving DecidableEq

/-- Wire integer of a component type (message.h lines 32-37). -/
def component_type.wire : component_type → Nat
  | .cot_action_row => 1
  | .cot_button => 2

/-- Button style enumeration (message.h lines 42-53). -/
inductive component_style where
  | cos_primary
  | cos_secondary
  | cos_success
  | cos_danger
  | cos_link
deriving DecidableEq

/-- Wire integer of a button style (message.h lines 42-53). -/
def component_style.wire : component_style → Nat
  | .cos_primary => 1
  | .cos_secondary => 2
  | .cos_success => 3
  | .cos_danger => 4
  | .cos_link => 5

/-- Emoji reference on a button (message.h lines 109-128). -/
structure inner_emoji where
  name : String
  id : snowflake
  animated : Bool
deriving DecidableEq

/-- The component tree (message.h lines 71-241): an action row holds child
components, a button carries label, style, custom id, url, disabled flag and
an emoji reference. -/
inductive component where
  | mk (type : component_type) (components : List component) (label : String)
      (style : component_style) (custom_id : String) (url : String)
      (disabled : Bool) (emoji : inner_emoji)

/-- The component's current type tag. -/
def component.type : component → component_type
  | .mk t _ _ _ _ _ _ _ => t

/-- The component's child components. -/
def component.components : component → List component
  | .mk _ cs _ _ _ _ _ _ => cs

/-- The component's label. -/
def component.label : component → String
  | .mk _ _ l _ _ _ _ _ => l

/-- The component's style. -/
def component.style : component → component_style
  | .mk _ _ _ s _ _ _ _ => s

/-- The component's custom id. -/
def component.custom_id : component → String
  | .mk _ _ _ _ cid _ _ _ => cid

/-- The component's url. -/
def component.url : component → String
  | .mk _ _ _ _ _ u _ _ => u

/-- The component's disabled flag. -/
def component.disabled : component → Bool
  | .mk _ _ _ _ _ _ d _ => d

/-- The component's emoji reference. -/
def component.emoji : component → inner_emoji
  | .mk _ _ _ _ _ _ _ e => e

/-- Modelled from the spec: the `component()` constructor's defaults — an
empty, enabled action row with empty strings and primary style
(implementation not under src/; the claims proved below do not depend on the
initial type tag). -/
def component.fresh : component :=
  .mk .cot_action_row [] "" .cos_primary "" "" false ⟨"", 0, false⟩

/-- `component::set_type` (message.h lines 138-149): set the type tag. -/
def component.set_type : component → component_type → component
  | .mk _ cs l s cid u d e, t => .mk t cs l s cid u d e

/-- Modelled from the spec: `set_label` sets the label and auto-sets the
type to `cot_button` (documented at message.h lines 151-159; implementation
not under src/). -/
def component.set_label : component → String → component
  | .mk _ cs _ s cid u d e, l => .mk .cot_button cs l s cid u d e

/-- Modelled from the spec: `set_url` sets the url, the style to `cos_link`
and the type to `cot_button` (documented at message.h lines 161-169;
implementation not under src/). -/
def component.set_url : component → String → component
  | .mk _ cs l _ cid _ d e, u => .mk .cot_button cs l .cos_link cid u d e

/-- Modelled from the spec: `set_style` sets the style and auto-sets the
type to `cot_button` (documented at message.h lines 171-179; implementation
not under src/). -/
def component.set_style : component → component_style → component
  | .mk _ cs l _ cid u d e, s => .mk .cot_button cs l s cid u d e

/-- Modelled from the spec: `set_id` sets the custom id and auto-sets the
type to `cot_button` (documented at message.h lines 181-190; implementation
not under src/). -/
def component.set_id : component → String → component
  | .mk _ cs l s _ u d e, cid => .mk .cot_button cs l s cid u d e

/-- Modelled from the spec: `set_disabled` sets the disabled flag; per the
spec, "setting any button-only field on a component implicitly retags its
type as button", so the type becomes `cot_button` (declared at message.h
lines 192-199; implementation not under src/). -/
def component.set_disabled : component → Bool → component
  | .mk _ cs l s cid u _ e, d => .mk .cot_button cs l s cid u d e

/-- Modelled from the spec: `set_emoji` sets the emoji reference and
auto-sets the type to `cot_button` (documented at message.h lines 211-228;
implementation not under src/). -/
def component.set_emoji : component → String → snowflake → Bool → component
  | .mk _ cs l s cid u d _, nm, eid, anim => .mk .cot_button cs l s cid u d ⟨nm, eid, anim⟩

/-- Modelled from the spec: `add_component` appends a sub-component and
automatically sets this component's type to `cot_action_row` (documented at
message.h lines 201-209; implementation not under src/). -/
def component.add_component : component → component → component
  | .mk _ cs l s cid u d e, c => .mk .cot_action_row (cs ++ [c]) l s cid u d e

/-- Wire-to-variant mapping for component types: 2 is a button, anything else
reads back as an action row (the container default). -/
def component_type.of_wire (n : Nat) : component_type :=
  if n = 2 then .cot_button else .cot_action_row

/-- Wire-to-variant mapping for button styles, inverse to
`component_style.wire` on the assigned values 1-5. -/
def component_style.of_wire (n : Nat) : component_style :=
  if n = 2 then .cos_secondary
  else if n = 3 then .cos_success
  else if n = 4 then .cos_danger
  else if n = 5 then .cos_link
  else .cos_primary

/-- Modelled from the spec: `component::build_json` (declared at message.h
lines 236-239; implementation not under src/) emits the component's wire
document — type and style as their wire integers, the child components
recursively, and the emoji reference — in a fixed key order; the string
serialization of the document is left to the transport layer. -/
def component.build_json : component → Json
  | .mk t cs l s cid u d e =>
    .obj [("type", Json.num t.wire),
          ("components", Json.arr (cs.attach.map fun c => component.build_json c.1)),
          ("label", Json.str l),
          ("style", Json.num s.wire),
          ("custom_id", Json.str cid),
          ("url", Json.str u),
          ("disabled", Json.bool d),
          ("emoji", Json.obj [("name", Json.str e.name),
            ("id", Json.str (snowflake_to_wire e.id)),
            ("animated", Json.bool e.animated)])]
termination_by c => sizeOf c
decreasing_by
  have := List.sizeOf_lt_of_mem c.2
  simp
  omega

/-- Modelled from the spec: `component::fill_from_json` (declared at
message.h lines 230-234; implementation not under src/) reads the component
tree back from its wire document, tolerant of absent keys with the documented
defaults. -/
def component.fill_from_json (j : Json) : component :=
  .mk (component_type.of_wire (j.numField "type"))
      ((j.arrField "components").attach.map fun x => component.fill_from_json x.1)
      (j.strField "label")
      (component_style.of_wire (j.numField "style"))
      (j.strField "custom_id") (j.strField "url") (j.boolField "disabled")
      { name := (j.field "emoji").strField "name",
        id := (j.field "emoji").snowflakeD "id",
        animated := (j.field "emoji").boolField "animated" }
termination_by sizeOf j
decreasing_by
  have hff : ∀ (fs : List (String × Json)) (k2 : String),
      sizeOf (Json.findField fs k2) ≤ sizeOf fs := by
    intro fs k2
    induction fs with
    | nil => simp [Json.findField]
    | cons p rest ih =>
      obtain ⟨a, v⟩ := p
      by_cases hak : a = k2 <;> simp [Json.findField, hak] <;> omega
  have hfd : sizeOf (j.field "components") ≤ sizeOf j := by
    cases j <;> simp [Json.field]
    case obj fs => have := hff fs "components"; omega
  have hmem := x.2
  cases hf : j.field "components"
  all_goals simp only [Json.arrField, hf] at hmem
  case arr xs =>
    rw [hf] at hfd
    have h2 := List.sizeOf_lt_of_mem hmem
    simp at hfd
    omega
  all_goals simp at hmem

/-- `message_flags` bit value (message.h line 487). -/
def m_crossposted : Nat := 1 <<< 0

/-- `message_flags` bit value (message.h line 489). -/
def m_is_crosspost : Nat := 1 <<< 1

/-- `message_flags` bit value (message.h line 491). -/
def m_supress_embeds : Nat := 1 <<< 2

/-- `message_flags` bit value (message.h line 493). -/
def m_source_message_deleted : Nat := 1 <<< 3

/-- `message_flags` bit value (message.h line 495). -/
def m_urgent : Nat := 1 <<< 4

/-- `message_flags` bit value (message.h line 497). -/
def m_ephemeral : Nat := 1 <<< 6

/-- `message_flags` bit value (message.h line 499). -/
def m_loading : Nat := 1 <<< 7

/-- User caching policy (message.h lines 551-565). -/
inductive cache_policy_t where
  | cp_aggressive
  | cp_lazy
  | cp_none
deriving DecidableEq

/-- A footer in an embed (embed_footer, message.h lines 246-253); the proxied
icon URL is computed by the platform and cannot be sent, so the outbound wire
model carries the sendable text and icon_url. -/
structure embed_footer where
  text : String
  icon_url : String
deriving DecidableEq

/-- An image or thumbnail in an embed (embed_image, message.h lines 258-267);
proxy_url, height and width are "calculated by discord" (platform-only), so
the outbound wire model carries the sendable url. -/
structure embed_image where
  url : String
deriving DecidableEq

/-- An embed author (embed_author, message.h lines 282-291); the proxied icon
URL is platform-computed, so the outbound wire model carries name, url and
icon_url. -/
structure embed_author where
  name : String
  url : String
  icon_url : String
deriving DecidableEq

/-- One embed field (embed_field, message.h lines 296-303). -/
structure embed_field where
  name : String
  value : String
  is_inline : Bool
deriving DecidableEq

/-- A rich embed (struct embed, message.h lines 308-334): scalar fields,
optional footer/image/thumbnail/author sub-objects and the ordered field
sequence. The video and provider sub-objects "cannot be sent" (message.h
lines 327-330) and the timestamp is a platform-specific date-time string
whose codec belongs to the transport conversion (spec §6), so they are
outside the outbound wire model. -/
structure embed where
  title : String
  description : String
  url : String
  color : Nat
  footer : Option embed_footer
  image : Option embed_image
  thumbnail : Option embed_image
  author : Option embed_author
  fields : List embed_field
deriving DecidableEq

/-- Modelled from the spec: the wire document of one embed field. -/
def embed_field.build_json (f : embed_field) : Json :=
  .obj [("name", Json.str f.name), ("value", Json.str f.value),
        ("inline", Json.bool f.is_inline)]

/-- Modelled from the spec: read one embed field back, with the documented
defaults for absent keys. -/
def embed_field.fill_from_json (j : Json) : embed_field :=
  { name := j.strField "name", value := j.strField "value",
    is_inline := j.boolField "inline" }

/-- Modelled from the spec: the embed's wire document — scalar keys, then
each optional sub-object's key present exactly when the sub-object is, then
the fields array (embed builder declared in message.h; implementation not
under src/). -/
def embed.build_json (e : embed) : Json :=
  .obj ([("title", Json.str e.title), ("description", Json.str e.description),
         ("url", Json.str e.url), ("color", Json.num e.color)] ++
    (match e.footer with
     | some f => [("footer", Json.obj [("text", Json.str f.text),
         ("icon_url", Json.str f.icon_url)])]
     | none => []) ++
    (match e.image with
     | some i => [("image", Json.obj [("url", Json.str i.url)])]
     | none => []) ++
    (match e.thumbnail with
     | some i => [("thumbnail", Json.obj [("url", Json.str i.url)])]
     | none => []) ++
    (match e.author with
     | some a => [("author", Json.obj [("name", Json.str a.name),
         ("url", Json.str a.url), ("icon_url", Json.str a.icon_url)])]
     | none => []) ++
    [("fields", Json.arr (e.fields.map embed_field.build_json))])

/-- Modelled from the spec: `embed(nlohmann::json*)` (message.h lines
339-342; implementation not under src/) — absent optional sub-objects map to
"absent", present ones are read field-by-field, and "fill_from_json must not
fail the whole entity just because one optional sub-object is missing". -/
def embed.fill_from_json (j : Json) : embed :=
  { title := j.strField "title", description := j.strField "description",
    url := j.strField "url", color := j.numField "color",
    footer := match j.field "footer" with
      | .obj fs => some { text := (Json.obj fs).strField "text",
                          icon_url := (Json.obj fs).strField "icon_url" }
      | _ => none,
    image := match j.field "image" with
      | .obj fs => some { url := (Json.obj fs).strField "url" }
      | _ => none,
    thumbnail := match j.field "thumbnail" with
      | .obj fs => some { url := (Json.obj fs).strField "url" }
      | _ => none,
    author := match j.field "author" with
      | .obj fs => some { name := (Json.obj fs).strField "name",
                          url := (Json.obj fs).strField "url",
                          icon_url := (Json.obj fs).strField "icon_url" }
      | _ => none,
    fields := (j.arrField "fields").map embed_field.fill_from_json }

/-- An attachment (struct attachment, message.h lines 447-464). Attachments
are received embedded under a message and uploaded via the file fields, not
sent as JSON, so they have a fill direction only. -/
structure attachment where
  id : snowflake
  size : Nat
  filename : String
  url : String
  proxy_url : String
  width : Nat
  height : Nat
  content_type : String
deriving DecidableEq

/-- Modelled from the spec: `attachment(nlohmann::json*)` (message.h lines
470-474; implementation not under src/), tolerant of absent keys. -/
def attachment.fill_from_json (j : Json) : attachment :=
  { id := j.snowflakeD "id", size := j.numField "size",
    filename := j.strField "filename", url := j.strField "url",
    proxy_url := j.strField "proxy_url", width := j.numField "width",
    height := j.numField "height", content_type := j.strField "content_type" }

/-- A reaction tally (struct reaction, message.h lines 417-425); received
only, never sent. -/
structure reaction where
  count : Nat
  me : Bool
  emoji_id : snowflake
  emoji_name : String
deriving DecidableEq

/-- Modelled from the spec: `reaction(nlohmann::json*)` (message.h lines
433-436; implementation not under src/) — the emoji identity comes from the
nested "emoji" sub-object. -/
def reaction.fill_from_json (j : Json) : reaction :=
  { count := j.numField "count", me := j.boolField "me",
    emoji_id := (j.field "emoji").snowflakeD "id",
    emoji_name := (j.field "emoji").strField "name" }

/-- The reply/crosspost reference (struct message_ref, message.h lines
626-631). -/
structure message_ref where
  message_id : snowflake
  channel_id : snowflake
  guild_id : snowflake
  fail_if_not_exists : Bool
deriving DecidableEq

/-- Modelled from the spec: read a message reference back from its wire
sub-object, with the documented defaults for absent keys. -/
def message_ref.fill_from_json (j : Json) : message_ref :=
  { message_id := j.snowflakeD "message_id",
    channel_id := j.snowflakeD "channel_id",
    guild_id := j.snowflakeD "guild_id",
    fail_if_not_exists := j.boolField "fail_if_not_exists" }

/-- Modelled from the spec: the message reference's wire sub-object. -/
def message_ref.build_json (r : message_ref) : Json :=
  .obj [("message_id", Json.str (snowflake_to_wire r.message_id)),
        ("channel_id", Json.str (snowflake_to_wire r.channel_id)),
        ("guild_id", Json.str (snowflake_to_wire r.guild_id)),
        ("fail_if_not_exists", Json.bool r.fail_if_not_exists)]

/-- Modelled from the spec: a mention sequence on the wire is an array of ID
strings ("ordered sequences of mentions (user/role/channel IDs)", spec §3;
IDs transmitted as strings, spec §6); elements that are not numeric ID
strings are skipped. -/
def parse_id_list (j : Json) : List snowflake :=
  match j with
  | .arr xs => xs.filterMap fun x =>
      match x with
      | .str s2 => wire_to_snowflake s2
      | _ => none
  | _ => []

/-- Modelled from the spec: the wire form of a mention sequence. -/
def id_list_json (ids : List snowflake) : Json :=
  .arr (ids.map fun n => Json.str (snowflake_to_wire n))

/-- The Message entity (struct message, message.h lines 570-631): scalar and
flag fields, the mention ID sequences, the embedded attachment, embed and
reaction sequences, the component tree and the reply reference of the wire
mapping. The author/member pair (whose resolution is governed by the cache
policy), the platform-set timestamps (date-string codec, spec §6), the
webhook id, the multipart file-upload fields and the self_allocated
ownership flag are outside the modelled wire subset. -/
structure message where
  id : snowflake
  channel_id : snowflake
  guild_id : snowflake
  content : String
  components : List component
  tts : Bool
  mention_everyone : Bool
  mentions : List snowflake
  mention_roles : List snowflake
  mention_channels : List snowflake
  attachments : List attachment
  embeds : List embed
  reactions : List reaction
  nonce : String
  pinned : Bool
  flags : Nat
  type : Nat
  message_reference : message_ref

/-- Modelled from the spec: the flag predicate is a bit test against the
single flags integer (message.h line 708; implementation not under src/). -/
def message.supress_embeds (m : message) : Bool :=
  m.flags &&& m_supress_embeds != 0

/-- Modelled from the spec: bit test for `m_crossposted` (message.h line
694; implementation not under src/). -/
def message.is_crossposted (m : message) : Bool :=
  m.flags &&& m_crossposted != 0

/-- Modelled from the spec: bit test for `m_is_crosspost` (message.h line
701; implementation not under src/). -/
def message.is_crosspost (m : message) : Bool :=
  m.flags &&& m_is_crosspost != 0

/-- Modelled from the spec: bit test for `m_source_message_deleted`
(message.h line 715; implementation not under src/). -/
def message.is_source_message_deleted (m : message) : Bool :=
  m.flags &&& m_source_message_deleted != 0

/-- Modelled from the spec: bit test for `m_urgent` (message.h line 722;
implementation not under src/). -/
def message.is_urgent (m : message) : Bool :=
  m.flags &&& m_urgent != 0

/-- Modelled from the spec: bit test for `m_ephemeral` (message.h line 729;
implementation not under src/). -/
def message.is_ephemeral (m : message) : Bool :=
  m.flags &&& m_ephemeral != 0

/-- Modelled from the spec: bit test for `m_loading` (message.h line 736;
implementation not under src/). -/
def message.is_loading (m : message) : Bool :=
  m.flags &&& m_loading != 0

/-- Modelled from the spec: `message::fill_from_json` is tolerant of absent
optional keys, assigning the documented defaults; IDs arrive as strings and
parse to integers; embedded sequences (mentions, attachments, embeds,
reactions, components) are read element-wise (message.h lines 676-681;
implementation not under src/). The cache-policy parameter only governs
author resolution, which is outside the modelled subset. -/
def message.fill_from_json (j : Json) : message :=
  { id := j.snowflakeD "id"
    channel_id := j.snowflakeD "channel_id"
    guild_id := j.snowflakeD "guild_id"
    content := j.strField "content"
    components := (j.arrField "components").map component.fill_from_json
    tts := j.boolField "tts"
    mention_everyone := j.boolField "mention_everyone"
    mentions := parse_id_list (j.field "mentions")
    mention_roles := parse_id_list (j.field "mention_roles")
    mention_channels := parse_id_list (j.field "mention_channels")
    attachments := (j.arrField "attachments").map attachment.fill_from_json
    embeds := (j.arrField "embeds").map embed.fill_from_json
    reactions := (j.arrField "reactions").map reaction.fill_from_json
    nonce := j.strField "nonce"
    pinned := j.boolField "pinned"
    flags := j.numField "flags"
    type := j.numField "type"
    message_reference := message_ref.fill_from_json (j.field "message_reference") }

/-- Modelled from the spec: `message::build_json` emits the outbound wire
document — the sendable scalar fields, the component and embed trees, the
mention ID sequences and the reply reference — in a fixed key order,
including the "id" field only when `with_id` is true (message.h lines
683-687; implementation not under src/). Attachments and reactions are
received-only and never emitted. The string serialization of the resulting
document is left to the transport layer. -/
def message.build_json (m : message) (with_id : Bool) : Json :=
  .obj ((if with_id then [("id", Json.str (snowflake_to_wire m.id))] else []) ++
    [("channel_id", Json.str (snowflake_to_wire m.channel_id)),
     ("components", Json.arr (m.components.map component.build_json)),
     ("content", Json.str m.content),
     ("embeds", Json.arr (m.embeds.map embed.build_json)),
     ("flags", Json.num m.flags),
     ("guild_id", Json.str (snowflake_to_wire m.guild_id)),
     ("mention_channels", id_list_json m.mention_channels),
     ("mention_everyone", Json.bool m.mention_everyone),
     ("mention_roles", id_list_json m.mention_roles),
     ("mentions", id_list_json m.mentions),
     ("message_reference", m.message_reference.build_json),
     ("nonce", Json.str m.nonce),
     ("pinned", Json.bool m.pinned),
     ("tts", Json.bool m.tts),
     ("type", Json.num m.type)])

/-- Message type enumeration (message.h lines 505-546). -/
inductive message_type where
  | mt_default
  | mt_recipient_add
  | mt_recipient_remove
  | mt_call
  | mt_channel_name_change
  | mt_channel_icon_change
  | mt_channel_pinned_message
  | mt_guild_member_join
  | mt_user_premium_guild_subscription
  | mt_user_premium_guild_subscription_tier_1
  | mt_user_premium_guild_subscription_tier_2
  | mt_user_premium_guild_subscription_tier_3
  | mt_channel_follow_add
  | mt_guild_discovery_disqualified
  | mt_guild_discovery_requalified
  | mt_guild_discovery_grace_period_initial_warning
  | mt_guild_discovery_grace_period_final_warning
  | mt_reply
  | mt_application_command
  | mt_guild_invite_reminder
deriving DecidableEq

/-- Wire integer of each message type, exactly as assigned in the source
table (message.h lines 505-546). -/
def message_type.wire : message_type → Nat
  | .mt_default => 0
  | .mt_recipient_add => 1
  | .mt_recipient_remove => 2
  | .mt_call => 3
  | .mt_channel_name_change => 4
  | .mt_channel_icon_change => 5
  | .mt_channel_pinned_message => 6
  | .mt_guild_member_join => 7
  | .mt_user_premium_guild_subscription => 8
  | .mt_user_premium_guild_subscription_tier_1 => 9
  | .mt_user_premium_guild_subscription_tier_2 => 10
  | .mt_user_premium_guild_subscription_tier_3 => 11
  | .mt_channel_follow_add => 12
  | .mt_guild_discovery_disqualified => 14
  | .mt_guild_discovery_requalified => 15
  | .mt_guild_discovery_grace_period_initial_warning => 16
  | .mt_guild_discovery_grace_period_final_warning => 17
  | .mt_reply => 19
  | .mt_application_command => 20
  | .mt_guild_invite_reminder => 22

/-- All variants of the message-type table, in source order. -/
def message_type.all : List message_type :=
  [.mt_default, .mt_recipient_add, .mt_recipient_remove, .mt_call,
   .mt_channel_name_change, .mt_channel_icon_change, .mt_channel_pinned_message,
   .mt_guild_member_join, .mt_user_premium_guild_subscription,
   .mt_user_premium_guild_subscription_tier_1,
   .mt_user_premium_guild_subscription_tier_2,
   .mt_user_premium_guild_subscription_tier_3, .mt_channel_follow_add,
   .mt_guild_discovery_disqualified, .mt_guild_discovery_requalified,
   .mt_guild_discovery_grace_period_initial_warning,
   .mt_guild_discovery_grace_period_final_warning, .mt_reply,
   .mt_application_command, .mt_guild_invite_reminder]

/-- Input refuting claim C3: one guild-create payload whose second role
fragment lacks the required "id" field while a further role fragment (id 11)
and a channel fragment (id 21) follow it in the same payload. -/
def abort_input : Json := Json.obj [("d", Json.obj
  [("id", Json.str "1"),
   ("roles", Json.arr [Json.obj [("id", Json.str "5")], Json.obj [],
     Json.obj [("id", Json.str "11")]]),
   ("channels", Json.arr [Json.obj [("id", Json.str "21")]]),
   ("members", Json.arr [])])]

/-- Input for the amended C3's channel case: the second channel fragment is
malformed while a sibling channel fragment (id 21) follows it in the same
payload. -/
def abort_channels_input : Json := Json.obj [("d", Json.obj
  [("id", Json.str "2"),
   ("roles", Json.arr [Json.obj [("id", Json.str "5")]]),
   ("channels", Json.arr [Json.obj [("id", Json.str "6")], Json.obj [],
     Json.obj [("id", Json.str "21")]]),
   ("members", Json.arr [])])]

/-- Input for the amended C3's member case: the second member fragment lacks
the nested user sub-object while a sibling member fragment follows it in the
same payload. -/
def abort_members_input : Json := Json.obj [("d", Json.obj
  [("id", Json.str "3"),
   ("roles", Json.arr [Json.obj [("id", Json.str "5")]]),
   ("channels", Json.arr [Json.obj [("id", Json.str "6")]]),
   ("members", Json.arr [Json.obj [("user", Json.obj [("id", Json.str "7")])],
     Json.obj [], Json.obj [("user", Json.obj [("id", Json.str "31")])]])])]

/-- The concrete scenario payload of the spec: one role fragment with id
"10", one channel fragment with id "20", one member fragment whose nested
user has id "30". -/
def scenario_input : Json := Json.obj [("d", Json.obj
  [("id", Json.str "1"),
   ("roles", Json.arr [Json.obj [("id", Json.str "10")]]),
   ("channels", Json.arr [Json.obj [("id", Json.str "20")]]),
   ("members", Json.arr [Json.obj [("user", Json.obj [("id", Json.str "30")])]])])]

/-- An unavailable guild payload. -/
def unavailable_input : Json := Json.obj [("d", Json.obj
  [("id", Json.str "7"), ("unavailable", Json.bool true)])]

/-- A concrete embed with a footer and one field. -/
def sample_embed : embed :=
  { title := "t", description := "", url := "", color := 7,
    footer := some { text := "f", icon_url := "" }, image := none,
    thumbnail := none, author := none,
    fields := [{ name := "n", value := "v", is_inline := true }] }

/-- A concrete message carrying the sample embed, one action row holding one
button, and user/role mention IDs. -/
def sample_message : message :=
  { id := 1, channel_id := 2, guild_id := 3, content := "hi",
    components := [component.fresh.add_component (component.fresh.set_label "b")],
    tts := false, mention_everyone := false, mentions := [4], mention_roles := [5],
    mention_channels := [], attachments := [], embeds := [sample_embed],
    reactions := [], nonce := "", pinned := false, flags := 0, type := 0,
    message_reference := ⟨0, 0, 0, false⟩ }

theorem char_digit_toNat (d : Nat) (hd : d < 10) : (Char.ofNat (48 + d)).toNat = 48 + d := by
  interval_cases d <;> decide

theorem dec_value_eq_ofDigits (ds : List Nat) : dec_value ds = Nat.ofDigits 10 ds := by
  induction ds with
  | nil => simp [dec_value, Nat.ofDigits_nil]
  | cons d rest ih =>
    simp only [dec_value, List.foldr_cons, Nat.ofDigits_cons, Nat.cast_id]
    simp only [dec_value] at ih
    omega

theorem wire_roundtrip (n : Nat) : wire_to_snowflake (snowflake_to_wire n) = some n := by
  rcases eq_or_ne n 0 with rfl | hn
  · decide
  · have hds : Nat.digits 10 n ≠ [] := Nat.digits_ne_nil_iff_ne_zero.mpr hn
    have hlt : ∀ d ∈ Nat.digits 10 n, d < 10 := fun d hd => Nat.digits_lt_base (by norm_num) hd
    unfold snowflake_to_wire wire_to_snowflake
    rw [if_neg hn]
    have hdata : (String.mk (((Nat.digits 10 n).map fun d => Char.ofNat (48 + d)).reverse)).data
        = ((Nat.digits 10 n).map fun d => Char.ofNat (48 + d)).reverse := rfl
    rw [hdata]
    have hcond : (((Nat.digits 10 n).map fun d => Char.ofNat (48 + d)).reverse ≠ [] ∧
        ∀ c ∈ ((Nat.digits 10 n).map fun d => Char.ofNat (48 + d)).reverse,
          48 ≤ c.toNat ∧ c.toNat ≤ 57) := by
      constructor
      · simp [hds]
      · intro c hc
        rw [List.mem_reverse, List.mem_map] at hc
        obtain ⟨d, hd, rfl⟩ := hc
        have := hlt d hd
        rw [char_digit_toNat d this]
        omega
    rw [if_pos hcond]
    congr 1
    rw [List.map_reverse, List.reverse_reverse, List.map_map]
    have hmap : (Nat.digits 10 n).map ((fun c => c.toNat - 48) ∘ fun d => Char.ofNat (48 + d))
        = Nat.digits 10 n := by
      rw [List.map_congr_left (g := id) ?_, List.map_id]
      intro d hd
      simp [char_digit_toNat d (hlt d hd)]
    rw [hmap, dec_value_eq_ofDigits, Nat.ofDigits_digits]

theorem map_fetch_store_self {α : Type} (m : List (snowflake × α)) (k : snowflake) (v : α) :
    map_fetch (map_store m k v) k = some v := by
  induction m with
  | nil => simp [map_store, map_fetch]
  | cons p rest ih =>
    obtain ⟨a, b⟩ := p
    by_cases h : a = k <;> simp [map_store, map_fetch, h, ih]

theorem map_fetch_store_other {α : Type} (m : List (snowflake × α)) (k k2 : snowflake) (v : α)
    (h : k2 ≠ k) : map_fetch (map_store m k v) k2 = map_fetch m k2 := by
  induction m with
  | nil => simp [map_store, map_fetch, Ne.symm h]
  | cons p rest ih =>
    obtain ⟨a, b⟩ := p
    by_cases h2 : a = k
    · subst h2
      simp [map_store, map_fetch, Ne.symm h]
    · by_cases h3 : a = k2
      · subst h3
        simp [map_store, map_fetch, h2, h]
      · simp [map_store, map_fetch, h2, h3, ih]

theorem map_fetch_store_isSome {α : Type} (m : List (snowflake × α)) (k k2 : snowflake) (v : α)
    (h : (map_fetch m k2).isSome) : (map_fetch (map_store m k v) k2).isSome := by
  by_cases hk : k2 = k
  · subst hk; simp [map_fetch_store_self]
  · rwa [map_fetch_store_other m k k2 v hk]

theorem key_count_store {α : Type} (m : List (snowflake × α)) (k : snowflake) (v : α)
    (h : key_count m k ≤ 1) : key_count (map_store m k v) k = 1 := by
  induction m with
  | nil => simp [map_store, key_count]
  | cons p rest ih =>
    obtain ⟨a, b⟩ := p
    by_cases h2 : a = k
    · subst h2
      simpa [map_store, key_count, List.filter_cons] using h
    · have h3 : key_count rest k ≤ 1 := by
        simpa [key_count, List.filter_cons, h2] using h
      have h4 := ih h3
      simpa [map_store, key_count, List.filter_cons, h2] using h4

theorem applyTrace_append (st : CacheState) (a b : List StoreOp) :
    applyTrace st (a ++ b) = applyTrace (applyTrace st a) b := by
  simp [applyTrace, List.foldl_append]

theorem applyTrace_guild_cache (st : CacheState) (ops : List StoreOp)
    (h : ∀ g, StoreOp.sGuild g ∉ ops) :
    (applyTrace st ops).guild_cache = st.guild_cache := by
  induction ops generalizing st with
  | nil => rfl
  | cons op rest ih =>
    have h2 : ∀ g, StoreOp.sGuild g ∉ rest := fun g hg => h g (List.mem_cons_of_mem op hg)
    cases op with
    | sRole r => simpa [applyTrace, applyOp] using ih (applyOp st (.sRole r)) h2
    | sChannel c => simpa [applyTrace, applyOp] using ih (applyOp st (.sChannel c)) h2
    | sUser u => simpa [applyTrace, applyOp] using ih (applyOp st (.sUser u)) h2
    | sGuild g => exact absurd (List.mem_cons_self _ _) (h g)

theorem applyTrace_role_cache (st : CacheState) (ops : List StoreOp)
    (h : ∀ r, StoreOp.sRole r ∉ ops) :
    (applyTrace st ops).role_cache = st.role_cache := by
  induction ops generalizing st with
  | nil => rfl
  | cons op rest ih =>
    have h2 : ∀ r, StoreOp.sRole r ∉ rest := fun r hr => h r (List.mem_cons_of_mem op hr)
    cases op with
    | sRole r => exact absurd (List.mem_cons_self _ _) (h r)
    | sChannel c => simpa [applyTrace, applyOp] using ih (applyOp st (.sChannel c)) h2
    | sUser u => simpa [applyTrace, applyOp] using ih (applyOp st (.sUser u)) h2
    | sGuild g => simpa [applyTrace, applyOp] using ih (applyOp st (.sGuild g)) h2

theorem applyTrace_channel_cache (st : CacheState) (ops : List StoreOp)
    (h : ∀ c, StoreOp.sChannel c ∉ ops) :
    (applyTrace st ops).channel_cache = st.channel_cache := by
  induction ops generalizing st with
  | nil => rfl
  | cons op rest ih =>
    have h2 : ∀ c, StoreOp.sChannel c ∉ rest := fun c hc => h c (List.mem_cons_of_mem op hc)
    cases op with
    | sRole r => simpa [applyTrace, applyOp] using ih (applyOp st (.sRole r)) h2
    | sChannel c => exact absurd (List.mem_cons_self _ _) (h c)
    | sUser u => simpa [applyTrace, applyOp] using ih (applyOp st (.sUser u)) h2
    | sGuild g => simpa [applyTrace, applyOp] using ih (applyOp st (.sGuild g)) h2

theorem applyTrace_user_cache (st : CacheState) (ops : List StoreOp)
    (h : ∀ u, StoreOp.sUser u ∉ ops) :
    (applyTrace st ops).user_cache = st.user_cache := by
  induction ops generalizing st with
  | nil => rfl
  | cons op rest ih =>
    have h2 : ∀ u, StoreOp.sUser u ∉ rest := fun u hu => h u (List.mem_cons_of_mem op hu)
    cases op with
    | sRole r => simpa [applyTrace, applyOp] using ih (applyOp st (.sRole r)) h2
    | sChannel c => simpa [applyTrace, applyOp] using ih (applyOp st (.sChannel c)) h2
    | sUser u => exact absurd (List.mem_cons_self _ _) (h u)
    | sGuild g => simpa [applyTrace, applyOp] using ih (applyOp st (.sGuild g)) h2

theorem applyTrace_role_isSome (st : CacheState) (ops : List StoreOp) (k : snowflake)
    (h : (map_fetch st.role_cache k).isSome) :
    (map_fetch (applyTrace st ops).role_cache k).isSome := by
  induction ops generalizing st with
  | nil => exact h
  | cons op rest ih =>
    cases op with
    | sRole r =>
      exact ih _ (by simpa [applyOp] using map_fetch_store_isSome st.role_cache r.id k r h)
    | sChannel c => exact ih _ (by simpa [applyOp] using h)
    | sUser u => exact ih _ (by simpa [applyOp] using h)
    | sGuild g => exact ih _ (by simpa [applyOp] using h)

theorem applyTrace_channel_isSome (st : CacheState) (ops : List StoreOp) (k : snowflake)
    (h : (map_fetch st.channel_cache k).isSome) :
    (map_fetch (applyTrace st ops).channel_cache k).isSome := by
  induction ops generalizing st with
  | nil => exact h
  | cons op rest ih =>
    cases op with
    | sRole r => exact ih _ (by simpa [applyOp] using h)
    | sChannel c =>
      exact ih _ (by simpa [applyOp] using map_fetch_store_isSome st.channel_cache c.id k c h)
    | sUser u => exact ih _ (by simpa [applyOp] using h)
    | sGuild g => exact ih _ (by simpa [applyOp] using h)

theorem applyTrace_user_isSome (st : CacheState) (ops : List StoreOp) (k : snowflake)
    (h : (map_fetch st.user_cache k).isSome) :
    (map_fetch (applyTrace st ops).user_cache k).isSome := by
  induction ops generalizing st with
  | nil => exact h
  | cons op rest ih =>
    cases op with
    | sRole r => exact ih _ (by simpa [applyOp] using h)
    | sChannel c => exact ih _ (by simpa [applyOp] using h)
    | sUser u =>
      exact ih _ (by simpa [applyOp] using map_fetch_store_isSome st.user_cache u.id k u h)
    | sGuild g => exact ih _ (by simpa [applyOp] using h)

theorem roles_stored_after (st : CacheState) (rs : List role) (r : role) (hr : r ∈ rs) :
    (map_fetch (applyTrace st (rs.map StoreOp.sRole)).role_cache r.id).isSome := by
  induction rs generalizing st with
  | nil => cases hr
  | cons r0 rest ih =>
    simp only [List.map_cons, applyTrace, List.foldl_cons]
    rcases List.mem_cons.mp hr with rfl | hr2
    · exact applyTrace_role_isSome _ _ _ (by simp [applyOp, map_fetch_store_self])
    · exact ih _ hr2

theorem channels_stored_after (st : CacheState) (cs : List channel) (c : channel) (hc : c ∈ cs) :
    (map_fetch (applyTrace st (cs.map StoreOp.sChannel)).channel_cache c.id).isSome := by
  induction cs generalizing st with
  | nil => cases hc
  | cons c0 rest ih =>
    simp only [List.map_cons, applyTrace, List.foldl_cons]
    rcases List.mem_cons.mp hc with rfl | hc2
    · exact applyTrace_channel_isSome _ _ _ (by simp [applyOp, map_fetch_store_self])
    · exact ih _ hc2

theorem users_stored_after (st : CacheState) (us : List user) (u : user) (hu : u ∈ us) :
    (map_fetch (applyTrace st (us.map StoreOp.sUser)).user_cache u.id).isSome := by
  induction us generalizing st with
  | nil => cases hu
  | cons u0 rest ih =>
    simp only [List.map_cons, applyTrace, List.foldl_cons]
    rcases List.mem_cons.mp hu with rfl | hu2
    · exact applyTrace_user_isSome _ _ _ (by simp [applyOp, map_fetch_store_self])
    · exact ih _ hu2

theorem roles_loop_ok (js : List Json) (g : guild) (rs : List role)
    (h : parse_list role.fill_from_json js = some rs) :
    roles_loop js g = (true, rs.map StoreOp.sRole,
      { g with roles := g.roles ++ rs.map role.id }) := by
  induction js generalizing g rs with
  | nil =>
    simp only [parse_list, Option.some.injEq] at h
    subst h
    simp [roles_loop]
  | cons j rest ih =>
    simp only [parse_list] at h
    cases hf : role.fill_from_json j with
    | none => rw [hf] at h; cases h
    | some r =>
      rw [hf] at h
      obtain ⟨rs2, hrs2, rfl⟩ := Option.map_eq_some'.mp h
      simp only [roles_loop, hf]
      rw [ih _ _ hrs2]
      simp

theorem channels_loop_ok (js : List Json) (g : guild) (cs : List channel)
    (h : parse_list channel.fill_from_json js = some cs) :
    channels_loop js g = (true, cs.map StoreOp.sChannel,
      { g with channels := g.channels ++ cs.map channel.id }) := by
  induction js generalizing g cs with
  | nil =>
    simp only [parse_list, Option.some.injEq] at h
    subst h
    simp [channels_loop]
  | cons j rest ih =>
    simp only [parse_list] at h
    cases hf : channel.fill_from_json j with
    | none => rw [hf] at h; cases h
    | some c =>
      rw [hf] at h
      obtain ⟨cs2, hcs2, rfl⟩ := Option.map_eq_some'.mp h
      simp only [channels_loop, hf]
      rw [ih _ _ hcs2]
      simp

theorem members_loop_ok (js : List Json) (g : guild) (us : List user)
    (h : parse_list (fun j => user.fill_from_json (j.field "user")) js = some us) :
    ∃ g2, members_loop js g = (true, us.map StoreOp.sUser, g2) ∧
      g2.id = g.id ∧ g2.unavailable = g.unavailable ∧
      g2.roles = g.roles ∧ g2.channels = g.channels ∧
      (∀ k, (map_fetch g.members k).isSome → (map_fetch g2.members k).isSome) ∧
      (∀ u ∈ us, (map_fetch g2.members u.id).isSome) := by
  induction js generalizing g us with
  | nil =>
    simp only [parse_list, Option.some.injEq] at h
    subst h
    exact ⟨g, by simp [members_loop], rfl, rfl, rfl, rfl, fun k hk => hk, by simp⟩
  | cons j rest ih =>
    simp only [parse_list] at h
    cases hf : user.fill_from_json (j.field "user") with
    | none => rw [hf] at h; cases h
    | some u =>
      rw [hf] at h
      obtain ⟨us2, hus2, rfl⟩ := Option.map_eq_some'.mp h
      obtain ⟨g2, hloop, hid, hun, hroles, hchans, hmono, hmem⟩ :=
        ih { g with members := map_store g.members u.id (guild_member.fill_from_json j g u) }
          us2 hus2
      refine ⟨g2, ?_, hid, hun, hroles, hchans, ?_, ?_⟩
      · simp only [members_loop, hf, hloop, List.map_cons]
      · intro k hk
        exact hmono k (map_fetch_store_isSome _ _ _ _ hk)
      · intro u2 hu2
        rcases List.mem_cons.mp hu2 with rfl | hu3
        · exact hmono u2.id (by simp [map_fetch_store_self])
        · exact hmem u2 hu3

theorem guild_fill_fields (j : Json) (g0 : guild) (hg : guild.fill_from_json j = some g0) :
    g0.roles = [] ∧ g0.channels = [] ∧ g0.members = [] := by
  simp only [guild.fill_from_json] at hg
  obtain ⟨n, hn, rfl⟩ := Option.map_eq_some'.mp hg
  exact ⟨rfl, rfl, rfl⟩

theorem guild_create_ops_ok (j : Json) (g0 : guild) (rs : List role) (cs : List channel)
    (us : List user)
    (hg : guild.fill_from_json (j.field "d") = some g0)
    (hav : g0.is_unavailable = false)
    (hr : parse_list role.fill_from_json ((j.field "d").arrField "roles") = some rs)
    (hc : parse_list channel.fill_from_json ((j.field "d").arrField "channels") = some cs)
    (hm : parse_list (fun x => user.fill_from_json (x.field "user"))
      ((j.field "d").arrField "members") = some us) :
    ∃ gf, guild_create_ops j = (true,
        (rs.map StoreOp.sRole ++ cs.map StoreOp.sChannel ++ us.map StoreOp.sUser) ++
          [StoreOp.sGuild gf]) ∧
      gf.id = g0.id ∧ gf.roles = rs.map role.id ∧ gf.channels = cs.map channel.id ∧
      (∀ u ∈ us, (map_fetch gf.members u.id).isSome) := by
  obtain ⟨hgr, hgc, hgm⟩ := guild_fill_fields _ _ hg
  have h1 := roles_loop_ok _ g0 _ hr
  have h2 := channels_loop_ok _ { g0 with roles := g0.roles ++ rs.map role.id } _ hc
  obtain ⟨g2, hloop, hid, hun, hroles, hchans, hmono, hmem⟩ :=
    members_loop_ok ((j.field "d").arrField "members")
      { g0 with roles := g0.roles ++ rs.map role.id,
                channels := g0.channels ++ cs.map channel.id } us hm
  refine ⟨g2, ?_, ?_, ?_, ?_, hmem⟩
  · simp only [guild_create_ops, hg, hav, Bool.false_eq_true, if_false, h1, h2, hloop,
      List.append_assoc]
  · simpa using hid
  · rw [hroles]; simp [hgr]
  · rw [hchans]; simp [hgc]

theorem roles_loop_abort (pre : List Json) (bad : Json) (post : List Json) (g : guild)
    (rs : List role)
    (hpre : parse_list role.fill_from_json pre = some rs)
    (hbad : role.fill_from_json bad = none) :
    ∃ g2, roles_loop (pre ++ bad :: post) g = (false, rs.map StoreOp.sRole, g2) := by
  induction pre generalizing g rs with
  | nil =>
    simp only [parse_list, Option.some.injEq] at hpre
    subst hpre
    exact ⟨g, by simp [roles_loop, hbad]⟩
  | cons j rest ih =>
    simp only [parse_list] at hpre
    cases hf : role.fill_from_json j with
    | none => rw [hf] at hpre; cases hpre
    | some r =>
      rw [hf] at hpre
      obtain ⟨rs2, hrs2, rfl⟩ := Option.map_eq_some'.mp hpre
      obtain ⟨g2, hg2⟩ := ih { g with roles := g.roles ++ [r.id] } rs2 hrs2
      exact ⟨g2, by simp [roles_loop, hf, hg2]⟩

theorem applyTrace_role_fetch (st : CacheState) (ops : List StoreOp) (k : snowflake)
    (h : ∀ r, StoreOp.sRole r ∈ ops → r.id ≠ k) :
    map_fetch (applyTrace st ops).role_cache k = map_fetch st.role_cache k := by
  induction ops generalizing st with
  | nil => rfl
  | cons op rest ih =>
    have h2 : ∀ r, StoreOp.sRole r ∈ rest → r.id ≠ k :=
      fun r hr => h r (List.mem_cons_of_mem op hr)
    have hstep : map_fetch (applyOp st op).role_cache k = map_fetch st.role_cache k := by
      cases op with
      | sRole r =>
        have hne : k ≠ r.id := fun hk => h r (List.mem_cons_self _ rest) hk.symm
        simpa [applyOp] using map_fetch_store_other st.role_cache r.id k r hne
      | sChannel c => rfl
      | sUser u => rfl
      | sGuild g => rfl
    calc map_fetch (applyTrace st (op :: rest)).role_cache k
        = map_fetch (applyTrace (applyOp st op) rest).role_cache k := rfl
      _ = map_fetch (applyOp st op).role_cache k := ih (applyOp st op) h2
      _ = map_fetch st.role_cache k := hstep

theorem applyTrace_channel_fetch (st : CacheState) (ops : List StoreOp) (k : snowflake)
    (h : ∀ c, StoreOp.sChannel c ∈ ops → c.id ≠ k) :
    map_fetch (applyTrace st ops).channel_cache k = map_fetch st.channel_cache k := by
  induction ops generalizing st with
  | nil => rfl
  | cons op rest ih =>
    have h2 : ∀ c, StoreOp.sChannel c ∈ rest → c.id ≠ k :=
      fun c hc => h c (List.mem_cons_of_mem op hc)
    have hstep : map_fetch (applyOp st op).channel_cache k =
        map_fetch st.channel_cache k := by
      cases op with
      | sRole r => rfl
      | sChannel c =>
        have hne : k ≠ c.id := fun hk => h c (List.mem_cons_self _ rest) hk.symm
        simpa [applyOp] using map_fetch_store_other st.channel_cache c.id k c hne
      | sUser u => rfl
      | sGuild g => rfl
    calc map_fetch (applyTrace st (op :: rest)).channel_cache k
        = map_fetch (applyTrace (applyOp st op) rest).channel_cache k := rfl
      _ = map_fetch (applyOp st op).channel_cache k := ih (applyOp st op) h2
      _ = map_fetch st.channel_cache k := hstep

theorem applyTrace_user_fetch (st : CacheState) (ops : List StoreOp) (k : snowflake)
    (h : ∀ u, StoreOp.sUser u ∈ ops → u.id ≠ k) :
    map_fetch (applyTrace st ops).user_cache k = map_fetch st.user_cache k := by
  induction ops generalizing st with
  | nil => rfl
  | cons op rest ih =>
    have h2 : ∀ u, StoreOp.sUser u ∈ rest → u.id ≠ k :=
      fun u hu => h u (List.mem_cons_of_mem op hu)
    have hstep : map_fetch (applyOp st op).user_cache k = map_fetch st.user_cache k := by
      cases op with
      | sRole r => rfl
      | sChannel c => rfl
      | sUser u =>
        have hne : k ≠ u.id := fun hk => h u (List.mem_cons_self _ rest) hk.symm
        simpa [applyOp] using map_fetch_store_other st.user_cache u.id k u hne
      | sGuild g => rfl
    calc map_fetch (applyTrace st (op :: rest)).user_cache k
        = map_fetch (applyTrace (applyOp st op) rest).user_cache k := rfl
      _ = map_fetch (applyOp st op).user_cache k := ih (applyOp st op) h2
      _ = map_fetch st.user_cache k := hstep

theorem channels_loop_abort (pre : List Json) (bad : Json) (post : List Json) (g : guild)
    (cs : List channel)
    (hpre : parse_list channel.fill_from_json pre = some cs)
    (hbad : channel.fill_from_json bad = none) :
    ∃ g2, channels_loop (pre ++ bad :: post) g = (false, cs.map StoreOp.sChannel, g2) := by
  induction pre generalizing g cs with
  | nil =>
    simp only [parse_list, Option.some.injEq] at hpre
    subst hpre
    exact ⟨g, by simp [channels_loop, hbad]⟩
  | cons j rest ih =>
    simp only [parse_list] at hpre
    cases hf : channel.fill_from_json j with
    | none => rw [hf] at hpre; cases hpre
    | some c =>
      rw [hf] at hpre
      obtain ⟨cs2, hcs2, rfl⟩ := Option.map_eq_some'.mp hpre
      obtain ⟨g2, hg2⟩ := ih { g with channels := g.channels ++ [c.id] } cs2 hcs2
      exact ⟨g2, by simp [channels_loop, hf, hg2]⟩

theorem members_loop_abort (pre : List Json) (bad : Json) (post : List Json) (g : guild)
    (us : List user)
    (hpre : parse_list (fun x => user.fill_from_json (x.field "user")) pre = some us)
    (hbad : user.fill_from_json (bad.field "user") = none) :
    ∃ g2, members_loop (pre ++ bad :: post) g = (false, us.map StoreOp.sUser, g2) := by
  induction pre generalizing g us with
  | nil =>
    simp only [parse_list, Option.some.injEq] at hpre
    subst hpre
    exact ⟨g, by simp [members_loop, hbad]⟩
  | cons j rest ih =>
    simp only [parse_list] at hpre
    cases hf : user.fill_from_json (j.field "user") with
    | none => rw [hf] at hpre; cases hpre
    | some u =>
      rw [hf] at hpre
      obtain ⟨us2, hus2, rfl⟩ := Option.map_eq_some'.mp hpre
      obtain ⟨g2, hg2⟩ := ih
        { g with members := map_store g.members u.id (guild_member.fill_from_json j g u) }
        us2 hus2
      exact ⟨g2, by simp [members_loop, hf, hg2]⟩

theorem guild_create_ops_roles_abort (j : Json) (g0 : guild) (pre : List Json) (bad : Json)
    (post : List Json) (rs : List role)
    (hg : guild.fill_from_json (j.field "d") = some g0)
    (hav : g0.is_unavailable = false)
    (hsplit : (j.field "d").arrField "roles" = pre ++ bad :: post)
    (hpre : parse_list role.fill_from_json pre = some rs)
    (hbad : role.fill_from_json bad = none) :
    guild_create_ops j = (false, rs.map StoreOp.sRole) := by
  obtain ⟨g2, hloop⟩ := roles_loop_abort pre bad post g0 rs hpre hbad
  simp only [guild_create_ops, hg, hav, Bool.false_eq_true, if_false, hsplit, hloop]

theorem guild_create_ops_channels_abort (j : Json) (g0 : guild) (rs : List role)
    (pre : List Json) (bad : Json) (post : List Json) (cs : List channel)
    (hg : guild.fill_from_json (j.field "d") = some g0)
    (hav : g0.is_unavailable = false)
    (hr : parse_list role.fill_from_json ((j.field "d").arrField "roles") = some rs)
    (hsplit : (j.field "d").arrField "channels" = pre ++ bad :: post)
    (hpre : parse_list channel.fill_from_json pre = some cs)
    (hbad : channel.fill_from_json bad = none) :
    guild_create_ops j = (false, rs.map StoreOp.sRole ++ cs.map StoreOp.sChannel) := by
  have h1 := roles_loop_ok _ g0 _ hr
  obtain ⟨g2, hloop⟩ := channels_loop_abort pre bad post
    { g0 with roles := g0.roles ++ rs.map role.id } cs hpre hbad
  simp only [guild_create_ops, hg, hav, Bool.false_eq_true, if_false, h1, hsplit, hloop]

theorem guild_create_ops_members_abort (j : Json) (g0 : guild) (rs : List role)
    (cs : List channel) (pre : List Json) (bad : Json) (post : List Json) (us : List user)
    (hg : guild.fill_from_json (j.field "d") = some g0)
    (hav : g0.is_unavailable = false)
    (hr : parse_list role.fill_from_json ((j.field "d").arrField "roles") = some rs)
    (hc : parse_list channel.fill_from_json ((j.field "d").arrField "channels") = some cs)
    (hsplit : (j.field "d").arrField "members" = pre ++ bad :: post)
    (hpre : parse_list (fun x => user.fill_from_json (x.field "user")) pre = some us)
    (hbad : user.fill_from_json (bad.field "user") = none) :
    guild_create_ops j = (false,
      rs.map StoreOp.sRole ++ cs.map StoreOp.sChannel ++ us.map StoreOp.sUser) := by
  have h1 := roles_loop_ok _ g0 _ hr
  have h2 := channels_loop_ok _ { g0 with roles := g0.roles ++ rs.map role.id } _ hc
  obtain ⟨g3, hloop⟩ := members_loop_abort pre bad post
    { g0 with roles := g0.roles ++ rs.map role.id,
              channels := g0.channels ++ cs.map channel.id } us hpre hbad
  simp only [guild_create_ops, hg, hav, Bool.false_eq_true, if_false, h1, h2, hsplit,
    hloop]

/-- Claim C4: setting any button-only field (label, style, custom id, URL, emoji,
disabled flag) retags the component's type as button; adding a child component
retags it as action row regardless of prior state; and set_url on a freshly
constructed component yields type button and style link. -/
theorem component_mutators_retag (c child : component) (lab cid u nm : String)
    (s : component_style) (d anim : Bool) (eid : snowflake) :
    (c.set_label lab).type = .cot_button ∧
    (c.set_style s).type = .cot_button ∧
    (c.set_id cid).type = .cot_button ∧
    (c.set_url u).type = .cot_button ∧
    (c.set_emoji nm eid anim).type = .cot_button ∧
    (c.set_disabled d).type = .cot_button ∧
    (c.add_component child).type = .cot_action_row ∧
    (component.fresh.set_url u).type = .cot_button ∧
    (component.fresh.set_url u).style = .cos_link ∧
    (c.set_url u).style = .cos_link ∧ (c.set_url u).url = u := by
  cases c
  exact ⟨rfl, rfl, rfl, rfl, rfl, rfl, rfl, rfl, rfl, rfl, rfl⟩

/-- Claim C6: a message whose flags equal (1<<2)|(1<<6) reports supress_embeds
and is_ephemeral true and is_urgent false; each predicate is a bit test against
the single flags integer. -/
theorem message_flag_predicates (m : message)
    (h : m.flags = (1 <<< 2) ||| (1 <<< 6)) :
    m.supress_embeds = true ∧ m.is_ephemeral = true ∧ m.is_urgent = false := by
  simp only [message.supress_embeds, message.is_ephemeral, message.is_urgent,
    m_supress_embeds, m_ephemeral, m_urgent, h]
  decide

/-- Witness for C6 at a concrete message with flags 68. -/
theorem message_flag_predicates_witness :
    message.supress_embeds ⟨0, 0, 0, "", [], false, false, [], [], [], [], [], [], "", false, 68, 0, ⟨0, 0, 0, false⟩⟩ = true ∧
    message.is_ephemeral ⟨0, 0, 0, "", [], false, false, [], [], [], [], [], [], "", false, 68, 0, ⟨0, 0, 0, false⟩⟩ = true ∧
    message.is_urgent ⟨0, 0, 0, "", [], false, false, [], [], [], [], [], [], "", false, 68, 0, ⟨0, 0, 0, false⟩⟩ = false :=
  message_flag_predicates ⟨0, 0, 0, "", [], false, false, [], [], [], [], [], [], "", false, 68, 0, ⟨0, 0, 0, false⟩⟩ rfl

/-- Claim C7: the message-type table assigns exactly the wire values 0-12,
14-17, 19, 20 and 22, in source order, leaves 13, 18 and 21 unassigned, and
maps no wire value to two different variants. -/
theorem message_type_table :
    (∀ t : message_type, t ∈ message_type.all) ∧
    message_type.all.map message_type.wire =
      [0, 1, 2, 3, 4, 5, 6, 7, 8, 9, 10, 11, 12, 14, 15, 16, 17, 19, 20, 22] ∧
    13 ∉ message_type.all.map message_type.wire ∧
    18 ∉ message_type.all.map message_type.wire ∧
    21 ∉ message_type.all.map message_type.wire ∧
    (message_type.all.map message_type.wire).Nodup := by
  refine ⟨fun t => ?_, by decide, by decide, by decide, by decide, by decide⟩
  cases t <;> simp [message_type.all]

/-- Claim C8: storing two entities with the same ID leaves exactly one entry
under that ID, and fetching returns the second entity (whole-entity
replacement). The hypothesis states that the cache is well formed (at most one
entry under the ID), as every cache reachable by store operations is. -/
theorem cache_store_replaces {α : Type} (m : List (snowflake × α)) (k : snowflake)
    (e1 e2 : α) (h : key_count m k ≤ 1) :
    key_count (map_store (map_store m k e1) k e2) k = 1 ∧
    map_fetch (map_store (map_store m k e1) k e2) k = some e2 :=
  ⟨key_count_store _ k e2 (le_of_eq (key_count_store m k e1 h)),
   map_fetch_store_self _ k e2⟩

/-- Witness for C8: two guilds with ID 5 stored into an empty guild cache. -/
theorem cache_store_replaces_witness :
    key_count (map_store (map_store ([] : List (snowflake × guild)) 5 ⟨5, false, [], [], []⟩)
      5 ⟨5, true, [], [], []⟩) 5 = 1 ∧
    map_fetch (map_store (map_store ([] : List (snowflake × guild)) 5 ⟨5, false, [], [], []⟩)
      5 ⟨5, true, [], [], []⟩) 5 = some ⟨5, true, [], [], []⟩ :=
  cache_store_replaces [] 5 ⟨5, false, [], [], []⟩ ⟨5, true, [], [], []⟩ (by decide)

theorem component_type_of_wire_wire (t : component_type) :
    component_type.of_wire t.wire = t := by
  cases t <;> rfl

theorem component_style_of_wire_wire (s : component_style) :
    component_style.of_wire s.wire = s := by
  cases s <;> rfl

theorem component.ind (P : component → Prop)
    (h : ∀ t cs l s cid u d e, (∀ c ∈ cs, P c) → P (.mk t cs l s cid u d e)) :
    ∀ c, P c
  | .mk t cs l s cid u d e => h t cs l s cid u d e (fun c2 hc2 => component.ind P h c2)
termination_by c => sizeOf c
decreasing_by
  have := List.sizeOf_lt_of_mem hc2
  simp
  omega

theorem component_fill_build (c : component) :
    component.fill_from_json (component.build_json c) = c := by
  induction c using component.ind with
  | h t cs l s cid u d e ih =>
    rw [component.build_json, component.fill_from_json]
    simp [Json.numField, Json.strField, Json.boolField, Json.snowflakeD,
      Json.snowflake?, Json.arrField, Json.field, Json.findField,
      component_type_of_wire_wire, component_style_of_wire_wire, wire_roundtrip,
      List.map_map, Function.comp]
    exact (List.map_congr_left fun c2 hc2 => ih c2 hc2).trans (List.map_id cs)

theorem embed_field_fill_build (f : embed_field) :
    embed_field.fill_from_json (embed_field.build_json f) = f := rfl

theorem embed_fill_build (e : embed) :
    embed.fill_from_json (embed.build_json e) = e := by
  obtain ⟨t, d, u, col, fo, im, th, au, fs⟩ := e
  cases fo <;> cases im <;> cases th <;> cases au <;>
    simp [embed.fill_from_json, embed.build_json, Json.strField, Json.numField,
      Json.boolField, Json.arrField, Json.field, Json.findField, List.map_map,
      Function.comp, embed_field_fill_build] <;>
    exact (List.map_congr_left fun f2 _ => embed_field_fill_build f2).trans
      (List.map_id fs)

theorem message_ref_fill_build (r : message_ref) :
    message_ref.fill_from_json (message_ref.build_json r) = r := by
  simp [message_ref.fill_from_json, message_ref.build_json, Json.snowflakeD,
    Json.snowflake?, Json.boolField, Json.field, Json.findField, wire_roundtrip]

theorem parse_id_list_round (ids : List snowflake) :
    parse_id_list (id_list_json ids) = ids := by
  induction ids with
  | nil => rfl
  | cons n rest ih =>
    simp only [parse_id_list, id_list_json, List.map_cons, List.filterMap_cons,
      wire_roundtrip]
    simp only [parse_id_list, id_list_json] at ih
    rw [ih]

theorem message_fill_build (m : message) (hatt : m.attachments = [])
    (hreact : m.reactions = []) :
    message.fill_from_json (message.build_json m true) = m := by
  obtain ⟨mid, cid, gid, ct, comps, t, me, ms, mrs, mcs, atts, embs, reacts, nce, p,
    f, ty, mref⟩ := m
  simp only at hatt hreact
  subst hatt
  subst hreact
  simp only [message.build_json, message.fill_from_json, Json.snowflakeD,
    Json.snowflake?, Json.strField, Json.boolField, Json.numField, Json.arrField,
    Json.field, Json.findField]
  simp [wire_roundtrip, parse_id_list_round, message_ref_fill_build, List.map_map,
    Function.comp, component_fill_build, embed_fill_build]
  constructor
  · exact (List.map_congr_left fun c2 _ => component_fill_build c2).trans
      (List.map_id comps)
  · exact (List.map_congr_left fun e2 _ => embed_fill_build e2).trans
      (List.map_id embs)

/-- Claim C5: `build_json` after `fill_from_json` is the identity on
canonical wire message documents — the builder's image, i.e. the wire
document of every expressible message with no platform-only content
(attachments and reactions are received-only) — and the `with_id = false`
output is exactly the `with_id = true` output with its leading "id" field
removed, so the ID is omitted unless `with_id` is true. -/
theorem message_wire_roundtrip (m : message) (hatt : m.attachments = [])
    (hreact : m.reactions = []) :
    message.build_json (message.fill_from_json (message.build_json m true)) true =
      message.build_json m true ∧
    message.build_json (message.fill_from_json (message.build_json m true)) false =
      message.build_json m false ∧
    ∃ rest, message.build_json m true =
        Json.obj (("id", Json.str (snowflake_to_wire m.id)) :: rest) ∧
      message.build_json m false = Json.obj rest := by
  have h := message_fill_build m hatt hreact
  exact ⟨by rw [h], by rw [h], ⟨_, rfl, rfl⟩⟩

/-- Witness for C5: a concrete message carrying a component tree (an action
row with one button), an embed with a footer and a field, and mention IDs. -/
theorem message_wire_roundtrip_witness :
    message.build_json (message.fill_from_json
      (message.build_json sample_message true)) true =
      message.build_json sample_message true ∧
    message.build_json (message.fill_from_json
      (message.build_json sample_message true)) false =
      message.build_json sample_message false ∧
    ∃ rest, message.build_json sample_message true =
        Json.obj (("id", Json.str (snowflake_to_wire sample_message.id)) :: rest) ∧
      message.build_json sample_message false = Json.obj rest :=
  message_wire_roundtrip sample_message (by rfl) (by rfl)

/-- Claim C2: an unavailable guild payload performs no role/channel/user cache
insertions, yields a guild with empty collections, and still stores the guild
in the guild cache. -/
theorem guild_create_unavailable (st : CacheState) (j : Json) (g0 : guild)
    (hg : guild.fill_from_json (j.field "d") = some g0)
    (hav : g0.is_unavailable = true) :
    guild_create_handle st j =
      (true, { st with guild_cache := map_store st.guild_cache g0.id g0 }) ∧
    g0.roles = [] ∧ g0.channels = [] ∧ g0.members = [] ∧
    map_fetch (guild_create_handle st j).2.guild_cache g0.id = some g0 := by
  have hops : guild_create_ops j = (true, [.sGuild g0]) := by
    simp only [guild_create_ops, hg, hav, if_true]
  obtain ⟨h1, h2, h3⟩ := guild_fill_fields _ _ hg
  have hh : guild_create_handle st j =
      (true, { st with guild_cache := map_store st.guild_cache g0.id g0 }) := by
    simp [guild_create_handle, hops, applyTrace, applyOp]
  refine ⟨hh, h1, h2, h3, ?_⟩
  rw [hh]
  exact map_fetch_store_self _ _ _

/-- Claim C1: an available guild payload with one role fragment (id 10), one
channel fragment (id 20) and one member fragment whose user has id 30 stores
role 10, channel 20 and user 30 in their caches, and caches a guild whose
member mapping has an entry under 30, whose role sequence is [10] and whose
channel sequence is [20]. -/
theorem guild_create_scenario (st : CacheState) (j rj cj mj : Json) (g0 : guild)
    (hg : guild.fill_from_json (j.field "d") = some g0)
    (hav : g0.is_unavailable = false)
    (hr : (j.field "d").arrField "roles" = [rj])
    (hrf : role.fill_from_json rj = some ⟨10⟩)
    (hc : (j.field "d").arrField "channels" = [cj])
    (hcf : channel.fill_from_json cj = some ⟨20⟩)
    (hm : (j.field "d").arrField "members" = [mj])
    (hmf : user.fill_from_json (mj.field "user") = some ⟨30⟩) :
    (guild_create_handle st j).1 = true ∧
    map_fetch (guild_create_handle st j).2.role_cache 10 = some ⟨10⟩ ∧
    map_fetch (guild_create_handle st j).2.channel_cache 20 = some ⟨20⟩ ∧
    map_fetch (guild_create_handle st j).2.user_cache 30 = some ⟨30⟩ ∧
    ∃ gf, map_fetch (guild_create_handle st j).2.guild_cache g0.id = some gf ∧
      (map_fetch gf.members 30).isSome ∧ gf.roles = [10] ∧ gf.channels = [20] := by
  obtain ⟨gf, hops, hid, hroles, hchans, hmem⟩ :=
    guild_create_ops_ok j g0 [⟨10⟩] [⟨20⟩] [⟨30⟩] hg hav
      (by rw [hr]; simp [parse_list, hrf])
      (by rw [hc]; simp [parse_list, hcf])
      (by rw [hm]; simp [parse_list, hmf])
  simp only [List.map_cons, List.map_nil, List.cons_append, List.nil_append] at hops
  have hh : guild_create_handle st j = (true,
      applyOp (applyOp (applyOp (applyOp st (.sRole ⟨10⟩)) (.sChannel ⟨20⟩))
        (.sUser ⟨30⟩)) (.sGuild gf)) := by
    simp [guild_create_handle, hops, applyTrace]
  rw [hh]
  simp only [applyOp]
  refine ⟨trivial, map_fetch_store_self _ _ _, map_fetch_store_self _ _ _,
    map_fetch_store_self _ _ _, gf, ?_, hmem ⟨30⟩ (by simp), ?_, ?_⟩
  · rw [hid]
    exact map_fetch_store_self _ _ _
  · simpa using hroles
  · simpa using hchans

/-- Claim C10: for an available payload whose fragments all parse, the cached
guild lists the role fragment IDs in payload order, the channel fragment IDs
in payload order, and its member mapping has an entry under each ID parsed
from a member fragment's nested user sub-object — the same ID present in the
user cache. -/
theorem guild_create_sequences (st : CacheState) (j : Json) (g0 : guild)
    (rs : List role) (cs : List channel) (us : List user)
    (hg : guild.fill_from_json (j.field "d") = some g0)
    (hav : g0.is_unavailable = false)
    (hr : parse_list role.fill_from_json ((j.field "d").arrField "roles") = some rs)
    (hc : parse_list channel.fill_from_json ((j.field "d").arrField "channels") = some cs)
    (hm : parse_list (fun x => user.fill_from_json (x.field "user"))
      ((j.field "d").arrField "members") = some us) :
    (guild_create_handle st j).1 = true ∧
    ∃ gf, map_fetch (guild_create_handle st j).2.guild_cache g0.id = some gf ∧
      gf.roles = rs.map role.id ∧ gf.channels = cs.map channel.id ∧
      ∀ u ∈ us, (map_fetch gf.members u.id).isSome ∧
        (map_fetch (guild_create_handle st j).2.user_cache u.id).isSome := by
  obtain ⟨gf, hops, hid, hroles, hchans, hmem⟩ :=
    guild_create_ops_ok j g0 rs cs us hg hav hr hc hm
  have hh : guild_create_handle st j = (true, applyTrace st
      ((rs.map StoreOp.sRole ++ cs.map StoreOp.sChannel ++ us.map StoreOp.sUser) ++
        [StoreOp.sGuild gf])) := by
    simp [guild_create_handle, hops]
  rw [hh]
  refine ⟨rfl, gf, ?_, hroles, hchans, fun u hu => ⟨hmem u hu, ?_⟩⟩
  · rw [applyTrace_append]
    have hgc : (applyTrace st
        (rs.map StoreOp.sRole ++ cs.map StoreOp.sChannel ++ us.map StoreOp.sUser)).guild_cache
        = st.guild_cache := by
      apply applyTrace_guild_cache
      intro g hgmem
      rcases List.mem_append.mp hgmem with h2 | h2
      · rcases List.mem_append.mp h2 with h3 | h3 <;>
          · obtain ⟨x, _, hx⟩ := List.mem_map.mp h3
            cases hx
      · obtain ⟨x, _, hx⟩ := List.mem_map.mp h2
        cases hx
    simp only [applyTrace, List.foldl_cons, List.foldl_nil, applyOp]
    rw [hid]
    exact map_fetch_store_self _ _ _
  · rw [applyTrace_append]
    have husr : (map_fetch (applyTrace st (rs.map StoreOp.sRole ++ cs.map StoreOp.sChannel ++
        us.map StoreOp.sUser)).user_cache u.id).isSome := by
      rw [applyTrace_append]
      exact users_stored_after _ us u hu
    simpa [applyTrace, applyOp] using husr

/-- Claim C9: in one available guild-create event the guild store is the final
store: every role, channel and user store precedes it, the guild cache is
untouched along every proper prefix of the event's store sequence, and once
the full prefix has run every ID in the guild's role and channel sequences is
already fetchable from its cache. -/
theorem guild_create_store_order (st : CacheState) (j : Json) (g0 : guild)
    (rs : List role) (cs : List channel) (us : List user)
    (hg : guild.fill_from_json (j.field "d") = some g0)
    (hav : g0.is_unavailable = false)
    (hr : parse_list role.fill_from_json ((j.field "d").arrField "roles") = some rs)
    (hc : parse_list channel.fill_from_json ((j.field "d").arrField "channels") = some cs)
    (hm : parse_list (fun x => user.fill_from_json (x.field "user"))
      ((j.field "d").arrField "members") = some us) :
    ∃ pre gf, guild_create_ops j = (true, pre ++ [StoreOp.sGuild gf]) ∧
      (∀ g2, StoreOp.sGuild g2 ∉ pre) ∧
      (∀ rid ∈ gf.roles, ∃ r, StoreOp.sRole r ∈ pre ∧ r.id = rid) ∧
      (∀ cid2 ∈ gf.channels, ∃ c, StoreOp.sChannel c ∈ pre ∧ c.id = cid2) ∧
      (∀ p, p <+: pre → (applyTrace st p).guild_cache = st.guild_cache) ∧
      (∀ rid ∈ gf.roles, (map_fetch (applyTrace st pre).role_cache rid).isSome) ∧
      (∀ cid2 ∈ gf.channels, (map_fetch (applyTrace st pre).channel_cache cid2).isSome) ∧
      (∀ u ∈ us, (map_fetch (applyTrace st pre).user_cache u.id).isSome) := by
  obtain ⟨gf, hops, hid, hroles, hchans, hmem⟩ :=
    guild_create_ops_ok j g0 rs cs us hg hav hr hc hm
  have hnog : ∀ g2, StoreOp.sGuild g2 ∉
      rs.map StoreOp.sRole ++ cs.map StoreOp.sChannel ++ us.map StoreOp.sUser := by
    intro g2
    simp
  refine ⟨rs.map StoreOp.sRole ++ cs.map StoreOp.sChannel ++ us.map StoreOp.sUser, gf,
    hops, hnog, ?_, ?_, ?_, ?_, ?_, ?_⟩
  · intro rid hrid
    rw [hroles] at hrid
    obtain ⟨r, hrmem, rfl⟩ := List.mem_map.mp hrid
    exact ⟨r, List.mem_append_left _ (List.mem_append_left _
      (List.mem_map_of_mem _ hrmem)), rfl⟩
  · intro cid2 hcid
    rw [hchans] at hcid
    obtain ⟨c, hcmem, rfl⟩ := List.mem_map.mp hcid
    exact ⟨c, List.mem_append_left _ (List.mem_append_right _
      (List.mem_map_of_mem _ hcmem)), rfl⟩
  · intro p hp
    exact applyTrace_guild_cache st p (fun g2 hg2 => hnog g2 (hp.subset hg2))
  · intro rid hrid
    rw [hroles] at hrid
    obtain ⟨r, hrmem, rfl⟩ := List.mem_map.mp hrid
    rw [applyTrace_append, applyTrace_append]
    rw [applyTrace_role_cache _ (us.map StoreOp.sUser) (by intro r2; simp),
      applyTrace_role_cache _ (cs.map StoreOp.sChannel) (by intro r2; simp)]
    exact roles_stored_after st rs r hrmem
  · intro cid2 hcid
    rw [hchans] at hcid
    obtain ⟨c, hcmem, rfl⟩ := List.mem_map.mp hcid
    rw [applyTrace_append, applyTrace_append]
    rw [applyTrace_channel_cache _ (us.map StoreOp.sUser) (by intro c2; simp)]
    exact channels_stored_after _ cs c hcmem
  · intro u hu
    rw [applyTrace_append, applyTrace_append]
    exact users_stored_after _ us u hu

/-- Counterexample to claim C3: on `abort_input` the handler abandons the
whole event at the malformed second role fragment — the sibling role fragment
(id 11) and the sibling channel fragment (id 21) of the same payload are NOT
processed, contradicting "sibling entities in the same payload continue to be
processed". The role stored before the failure (id 5) remains. -/
theorem guild_create_abort_counterexample :
    (guild_create_handle ⟨[], [], [], []⟩ abort_input).1 = false ∧
    map_fetch (guild_create_handle ⟨[], [], [], []⟩ abort_input).2.role_cache 5 =
      some ⟨5⟩ ∧
    map_fetch (guild_create_handle ⟨[], [], [], []⟩ abort_input).2.role_cache 11 = none ∧
    map_fetch (guild_create_handle ⟨[], [], [], []⟩ abort_input).2.channel_cache 21 = none ∧
    map_fetch (guild_create_handle ⟨[], [], [], []⟩ abort_input).2.guild_cache 1 = none := by
  decide

/-- Claim C3 (amended): whichever embedded entity construction fails — a
role, a channel, or a member's nested user — the handler abandons the event
from that point: entities built from earlier fragments of the same payload
remain stored, later sibling fragments are not processed, the guild is not
stored, and every cache entry under an ID not stored by this event — in
particular everything cached by previously handled events — is unchanged. -/
theorem guild_create_abort (st : CacheState) (j : Json) (g0 : guild)
    (hg : guild.fill_from_json (j.field "d") = some g0)
    (hav : g0.is_unavailable = false) :
    (∀ pre bad post rs,
      (j.field "d").arrField "roles" = pre ++ bad :: post →
      parse_list role.fill_from_json pre = some rs →
      role.fill_from_json bad = none →
      guild_create_handle st j = (false, applyTrace st (rs.map StoreOp.sRole)) ∧
      (guild_create_handle st j).2.guild_cache = st.guild_cache ∧
      (guild_create_handle st j).2.channel_cache = st.channel_cache ∧
      (guild_create_handle st j).2.user_cache = st.user_cache ∧
      ∀ k, (∀ r ∈ rs, r.id ≠ k) →
        map_fetch (guild_create_handle st j).2.role_cache k =
          map_fetch st.role_cache k) ∧
    (∀ rs pre bad post cs,
      parse_list role.fill_from_json ((j.field "d").arrField "roles") = some rs →
      (j.field "d").arrField "channels" = pre ++ bad :: post →
      parse_list channel.fill_from_json pre = some cs →
      channel.fill_from_json bad = none →
      guild_create_handle st j =
        (false, applyTrace st (rs.map StoreOp.sRole ++ cs.map StoreOp.sChannel)) ∧
      (guild_create_handle st j).2.guild_cache = st.guild_cache ∧
      (guild_create_handle st j).2.user_cache = st.user_cache ∧
      (∀ k, (∀ r ∈ rs, r.id ≠ k) →
        map_fetch (guild_create_handle st j).2.role_cache k =
          map_fetch st.role_cache k) ∧
      ∀ k, (∀ c ∈ cs, c.id ≠ k) →
        map_fetch (guild_create_handle st j).2.channel_cache k =
          map_fetch st.channel_cache k) ∧
    (∀ rs cs pre bad post us,
      parse_list role.fill_from_json ((j.field "d").arrField "roles") = some rs →
      parse_list channel.fill_from_json ((j.field "d").arrField "channels") = some cs →
      (j.field "d").arrField "members" = pre ++ bad :: post →
      parse_list (fun x => user.fill_from_json (x.field "user")) pre = some us →
      user.fill_from_json (bad.field "user") = none →
      guild_create_handle st j = (false, applyTrace st
        (rs.map StoreOp.sRole ++ cs.map StoreOp.sChannel ++ us.map StoreOp.sUser)) ∧
      (guild_create_handle st j).2.guild_cache = st.guild_cache ∧
      (∀ k, (∀ r ∈ rs, r.id ≠ k) →
        map_fetch (guild_create_handle st j).2.role_cache k =
          map_fetch st.role_cache k) ∧
      (∀ k, (∀ c ∈ cs, c.id ≠ k) →
        map_fetch (guild_create_handle st j).2.channel_cache k =
          map_fetch st.channel_cache k) ∧
      ∀ k, (∀ u ∈ us, u.id ≠ k) →
        map_fetch (guild_create_handle st j).2.user_cache k =
          map_fetch st.user_cache k) := by
  refine ⟨?_, ?_, ?_⟩
  · intro pre bad post rs hsplit hpre hbad
    have hops := guild_create_ops_roles_abort j g0 pre bad post rs hg hav hsplit hpre hbad
    have hh : guild_create_handle st j =
        (false, applyTrace st (rs.map StoreOp.sRole)) := by
      simp [guild_create_handle, hops]
    rw [hh]
    refine ⟨rfl, applyTrace_guild_cache st _ (by intro g2; simp),
      applyTrace_channel_cache st _ (by intro c2; simp),
      applyTrace_user_cache st _ (by intro u2; simp), ?_⟩
    intro k hk
    refine applyTrace_role_fetch st _ k ?_
    intro r hr
    obtain ⟨r2, hr2, he⟩ := List.mem_map.mp hr
    cases he
    exact hk r hr2
  · intro rs pre bad post cs hr hsplit hpre hbad
    have hops := guild_create_ops_channels_abort j g0 rs pre bad post cs hg hav hr
      hsplit hpre hbad
    have hh : guild_create_handle st j =
        (false, applyTrace st (rs.map StoreOp.sRole ++ cs.map StoreOp.sChannel)) := by
      simp [guild_create_handle, hops]
    rw [hh]
    refine ⟨rfl, applyTrace_guild_cache st _ (by intro g2; simp),
      applyTrace_user_cache st _ (by intro u2; simp), ?_, ?_⟩
    · intro k hk
      refine applyTrace_role_fetch st _ k ?_
      intro r hrm
      rcases List.mem_append.mp hrm with h3 | h3
      · obtain ⟨r2, hr2, he⟩ := List.mem_map.mp h3
        cases he
        exact hk r hr2
      · obtain ⟨c2, hc2, he⟩ := List.mem_map.mp h3
        cases he
    · intro k hk
      refine applyTrace_channel_fetch st _ k ?_
      intro c hcm
      rcases List.mem_append.mp hcm with h3 | h3
      · obtain ⟨r2, hr2, he⟩ := List.mem_map.mp h3
        cases he
      · obtain ⟨c2, hc2, he⟩ := List.mem_map.mp h3
        cases he
        exact hk c hc2
  · intro rs cs pre bad post us hr hc hsplit hpre hbad
    have hops := guild_create_ops_members_abort j g0 rs cs pre bad post us hg hav hr hc
      hsplit hpre hbad
    have hh : guild_create_handle st j = (false, applyTrace st
        (rs.map StoreOp.sRole ++ cs.map StoreOp.sChannel ++ us.map StoreOp.sUser)) := by
      simp [guild_create_handle, hops]
    rw [hh]
    refine ⟨rfl, applyTrace_guild_cache st _ (by intro g2; simp), ?_, ?_, ?_⟩
    · intro k hk
      refine applyTrace_role_fetch st _ k ?_
      intro r hrm
      rcases List.mem_append.mp hrm with h3 | h3
      · rcases List.mem_append.mp h3 with h4 | h4
        · obtain ⟨r2, hr2, he⟩ := List.mem_map.mp h4
          cases he
          exact hk r hr2
        · obtain ⟨c2, hc2, he⟩ := List.mem_map.mp h4
          cases he
      · obtain ⟨u2, hu2, he⟩ := List.mem_map.mp h3
        cases he
    · intro k hk
      refine applyTrace_channel_fetch st _ k ?_
      intro c hcm
      rcases List.mem_append.mp hcm with h3 | h3
      · rcases List.mem_append.mp h3 with h4 | h4
        · obtain ⟨r2, hr2, he⟩ := List.mem_map.mp h4
          cases he
        · obtain ⟨c2, hc2, he⟩ := List.mem_map.mp h4
          cases he
          exact hk c hc2
      · obtain ⟨u2, hu2, he⟩ := List.mem_map.mp h3
        cases he
    · intro k hk
      refine applyTrace_user_fetch st _ k ?_
      intro u hum
      rcases List.mem_append.mp hum with h3 | h3
      · rcases List.mem_append.mp h3 with h4 | h4
        · obtain ⟨r2, hr2, he⟩ := List.mem_map.mp h4
          cases he
        · obtain ⟨c2, hc2, he⟩ := List.mem_map.mp h4
          cases he
      · obtain ⟨u2, hu2, he⟩ := List.mem_map.mp h3
        cases he
        exact hk u hu2

/-- Witness for C1: the scenario payload ingested into empty caches. -/
theorem guild_create_scenario_witness :
    (guild_create_handle ⟨[], [], [], []⟩ scenario_input).1 = true ∧
    map_fetch (guild_create_handle ⟨[], [], [], []⟩ scenario_input).2.role_cache 10 =
      some ⟨10⟩ ∧
    map_fetch (guild_create_handle ⟨[], [], [], []⟩ scenario_input).2.channel_cache 20 =
      some ⟨20⟩ ∧
    map_fetch (guild_create_handle ⟨[], [], [], []⟩ scenario_input).2.user_cache 30 =
      some ⟨30⟩ ∧
    ∃ gf, map_fetch (guild_create_handle ⟨[], [], [], []⟩ scenario_input).2.guild_cache 1 =
        some gf ∧
      (map_fetch gf.members 30).isSome ∧ gf.roles = [10] ∧ gf.channels = [20] :=
  guild_create_scenario ⟨[], [], [], []⟩ scenario_input
    (Json.obj [("id", Json.str "10")]) (Json.obj [("id", Json.str "20")])
    (Json.obj [("user", Json.obj [("id", Json.str "30")])])
    ⟨1, false, [], [], []⟩ rfl rfl rfl rfl rfl rfl rfl rfl

/-- Witness for C2: the unavailable payload ingested into empty caches. -/
theorem guild_create_unavailable_witness :
    guild_create_handle ⟨[], [], [], []⟩ unavailable_input =
      (true, ⟨[], [], [], map_store [] 7 ⟨7, true, [], [], []⟩⟩) ∧
    (⟨7, true, [], [], []⟩ : guild).roles = [] ∧
    (⟨7, true, [], [], []⟩ : guild).channels = [] ∧
    (⟨7, true, [], [], []⟩ : guild).members = [] ∧
    map_fetch (guild_create_handle ⟨[], [], [], []⟩ unavailable_input).2.guild_cache 7 =
      some ⟨7, true, [], [], []⟩ :=
  guild_create_unavailable ⟨[], [], [], []⟩ unavailable_input ⟨7, true, [], [], []⟩ rfl rfl

/-- Witness for the amended C3, exercising all three failure positions:
`abort_input` (malformed role fragment), `abort_channels_input` (malformed
channel fragment) and `abort_members_input` (member fragment without a user
sub-object), each ingested into empty caches — exactly the stores before the
failure are performed. -/
theorem guild_create_abort_witness :
    (guild_create_handle ⟨[], [], [], []⟩ abort_input =
        (false, applyTrace ⟨[], [], [], []⟩ [StoreOp.sRole ⟨5⟩]) ∧
      (guild_create_handle ⟨[], [], [], []⟩ abort_input).2.guild_cache = [] ∧
      (guild_create_handle ⟨[], [], [], []⟩ abort_input).2.channel_cache = [] ∧
      (guild_create_handle ⟨[], [], [], []⟩ abort_input).2.user_cache = [] ∧
      ∀ k, (∀ r ∈ ([⟨5⟩] : List role), r.id ≠ k) →
        map_fetch (guild_create_handle ⟨[], [], [], []⟩ abort_input).2.role_cache k =
          map_fetch ([] : List (snowflake × role)) k) ∧
    (guild_create_handle ⟨[], [], [], []⟩ abort_channels_input =
        (false, applyTrace ⟨[], [], [], []⟩ [StoreOp.sRole ⟨5⟩, StoreOp.sChannel ⟨6⟩]) ∧
      (guild_create_handle ⟨[], [], [], []⟩ abort_channels_input).2.guild_cache = [] ∧
      (guild_create_handle ⟨[], [], [], []⟩ abort_channels_input).2.user_cache = [] ∧
      (∀ k, (∀ r ∈ ([⟨5⟩] : List role), r.id ≠ k) →
        map_fetch
          (guild_create_handle ⟨[], [], [], []⟩ abort_channels_input).2.role_cache k =
          map_fetch ([] : List (snowflake × role)) k) ∧
      ∀ k, (∀ c ∈ ([⟨6⟩] : List channel), c.id ≠ k) →
        map_fetch
          (guild_create_handle ⟨[], [], [], []⟩ abort_channels_input).2.channel_cache k =
          map_fetch ([] : List (snowflake × channel)) k) ∧
    (guild_create_handle ⟨[], [], [], []⟩ abort_members_input =
        (false, applyTrace ⟨[], [], [], []⟩
          [StoreOp.sRole ⟨5⟩, StoreOp.sChannel ⟨6⟩, StoreOp.sUser ⟨7⟩]) ∧
      (guild_create_handle ⟨[], [], [], []⟩ abort_members_input).2.guild_cache = [] ∧
      (∀ k, (∀ r ∈ ([⟨5⟩] : List role), r.id ≠ k) →
        map_fetch
          (guild_create_handle ⟨[], [], [], []⟩ abort_members_input).2.role_cache k =
          map_fetch ([] : List (snowflake × role)) k) ∧
      (∀ k, (∀ c ∈ ([⟨6⟩] : List channel), c.id ≠ k) →
        map_fetch
          (guild_create_handle ⟨[], [], [], []⟩ abort_members_input).2.channel_cache k =
          map_fetch ([] : List (snowflake × channel)) k) ∧
      ∀ k, (∀ u ∈ ([⟨7⟩] : List user), u.id ≠ k) →
        map_fetch
          (guild_create_handle ⟨[], [], [], []⟩ abort_members_input).2.user_cache k =
          map_fetch ([] : List (snowflake × user)) k) :=
  ⟨(guild_create_abort ⟨[], [], [], []⟩ abort_input ⟨1, false, [], [], []⟩ rfl rfl).1
      [Json.obj [("id", Json.str "5")]] (Json.obj []) [Json.obj [("id", Json.str "11")]]
      [⟨5⟩] rfl rfl rfl,
   (guild_create_abort ⟨[], [], [], []⟩ abort_channels_input
        ⟨2, false, [], [], []⟩ rfl rfl).2.1
      [⟨5⟩] [Json.obj [("id", Json.str "6")]] (Json.obj [])
      [Json.obj [("id", Json.str "21")]] [⟨6⟩] rfl rfl rfl rfl,
   (guild_create_abort ⟨[], [], [], []⟩ abort_members_input
        ⟨3, false, [], [], []⟩ rfl rfl).2.2
      [⟨5⟩] [⟨6⟩] [Json.obj [("user", Json.obj [("id", Json.str "7")])]] (Json.obj [])
      [Json.obj [("user", Json.obj [("id", Json.str "31")])]] [⟨7⟩]
      rfl rfl rfl rfl rfl⟩

/-- Witness for C9: the scenario payload, starting from empty caches. -/
theorem guild_create_store_order_witness :
    ∃ pre gf, guild_create_ops scenario_input = (true, pre ++ [StoreOp.sGuild gf]) ∧
      (∀ g2, StoreOp.sGuild g2 ∉ pre) ∧
      (∀ rid ∈ gf.roles, ∃ r, StoreOp.sRole r ∈ pre ∧ r.id = rid) ∧
      (∀ cid2 ∈ gf.channels, ∃ c, StoreOp.sChannel c ∈ pre ∧ c.id = cid2) ∧
      (∀ p, p <+: pre →
        (applyTrace (⟨[], [], [], []⟩ : CacheState) p).guild_cache = []) ∧
      (∀ rid ∈ gf.roles,
        (map_fetch (applyTrace (⟨[], [], [], []⟩ : CacheState) pre).role_cache rid).isSome) ∧
      (∀ cid2 ∈ gf.channels,
        (map_fetch (applyTrace (⟨[], [], [], []⟩ : CacheState) pre).channel_cache
          cid2).isSome) ∧
      (∀ u ∈ ([⟨30⟩] : List user),
        (map_fetch (applyTrace (⟨[], [], [], []⟩ : CacheState) pre).user_cache
          u.id).isSome) :=
  guild_create_store_order ⟨[], [], [], []⟩ scenario_input ⟨1, false, [], [], []⟩
    [⟨10⟩] [⟨20⟩] [⟨30⟩] rfl rfl rfl rfl rfl

/-- Witness for C10: the scenario payload, starting from empty caches. -/
theorem guild_create_sequences_witness :
    (guild_create_handle ⟨[], [], [], []⟩ scenario_input).1 = true ∧
    ∃ gf, map_fetch (guild_create_handle ⟨[], [], [], []⟩ scenario_input).2.guild_cache 1 =
        some gf ∧
      gf.roles = [10] ∧ gf.channels = [20] ∧
      ∀ u ∈ ([⟨30⟩] : List user), (map_fetch gf.members u.id).isSome ∧
        (map_fetch (guild_create_handle ⟨[], [], [], []⟩ scenario_input).2.user_cache
          u.id).isSome :=
  guild_create_sequences ⟨[], [], [], []⟩ scenario_input ⟨1, false, [], [], []⟩
    [⟨10⟩] [⟨20⟩] [⟨30⟩] rfl rfl rfl rfl rfl
